import Mathlib

/-!
# reSID — formal model of the SID emulator core

A shallow embedding of the reSID MOS6581 emulation core:

* `EnvelopeGenerator` — the rate-counter ADSR model (envelope.cc / envelope.h,
  the 15-bit rate counter + exponential sub-counter version),
* `WaveformGenerator` — the 24-bit phase accumulator and 23-bit noise LFSR
  (wave.h / wave.cc),
* `ExternalFilter` — the C64 output-stage RC filter model (extfilt.h),
* `SID.output` — the output scaling in sid.cc.

Machine integers are modelled as `Nat`/`Int` with explicit reductions
`% 2^w` wherever the C++ code masks (`& 0x7fff`, `& 0xffffff`, …) or where
unsigned overflow can occur.  C++ `while` loops are modelled with an explicit
fuel argument; in every loop of this code each iteration strictly consumes
the remaining cycle budget `delta_t`, so `delta_t + 1` fuel always suffices
(fuel-irrelevance lemmas below make this precise).
-/

set_option maxRecDepth 100000

namespace ReSID

/-- The envelope state machine phases (`enum { ATTACK, DECAY_SUSTAIN, RELEASE }`). -/
inductive EnvPhase where
  | ATTACK
  | DECAY_SUSTAIN
  | RELEASE
deriving DecidableEq, Repr

/-- State of `EnvelopeGenerator` (envelope.h): 15-bit rate counter, 16-bit
exponential counter, 8-bit envelope counter, the four 4-bit ADSR registers,
the gate bit and the phase. -/
structure EnvelopeGenerator where
  rate_counter : Nat
  exponential_counter : Nat
  envelope_counter : Nat
  attack : Nat
  decay : Nat
  sustain : Nat
  release : Nat
  gate : Bool
  state : EnvPhase
deriving DecidableEq, Repr

namespace EnvelopeGenerator

/-- `EnvelopeGenerator::rate_counter_period[]` — 15-bit rate counter comparison
values. -/
def rate_counter_period : List Nat :=
  [9, 32, 63, 95, 149, 220, 267, 313, 392, 977, 1954, 3126, 3906, 11720, 19532, 31252]

/-- `EnvelopeGenerator::exponential_counter_level[]`. -/
def exponential_counter_level : List Nat :=
  [0x5d, 0x36, 0x1a, 0x0e, 0x06, 0x00]

/-- `EnvelopeGenerator::exponential_counter_segment[]` — 256-entry lookup from
envelope counter to exponential line segment number. -/
def exponential_counter_segment : List Nat :=
  [ /- 0x00: -/ 5, 5, 5, 5, 5, 5, 5, 4,
   /- 0x08: -/ 4, 4, 4, 4, 4, 4, 4, 3,
   /- 0x10: -/ 3, 3, 3, 3, 3, 3, 3, 3,
   /- 0x18: -/ 3, 3, 3, 2, 2, 2, 2, 2,
   /- 0x20: -/ 2, 2, 2, 2, 2, 2, 2, 2,
   /- 0x28: -/ 2, 2, 2, 2, 2, 2, 2, 2,
   /- 0x30: -/ 2, 2, 2, 2, 2, 2, 2, 1,
   /- 0x38: -/ 1, 1, 1, 1, 1, 1, 1, 1,
   /- 0x40: -/ 1, 1, 1, 1, 1, 1, 1, 1,
   /- 0x48: -/ 1, 1, 1, 1, 1, 1, 1, 1,
   /- 0x50: -/ 1, 1, 1, 1, 1, 1, 1, 1,
   /- 0x58: -/ 1, 1, 1, 1, 1, 1, 0, 0,
   /- 0x60: -/ 0, 0, 0, 0, 0, 0, 0, 0,
   /- 0x68: -/ 0, 0, 0, 0, 0, 0, 0, 0,
   /- 0x70: -/ 0, 0, 0, 0, 0, 0, 0, 0,
   /- 0x78: -/ 0, 0, 0, 0, 0, 0, 0, 0,
   /- 0x80: -/ 0, 0, 0, 0, 0, 0, 0, 0,
   /- 0x88: -/ 0, 0, 0, 0, 0, 0, 0, 0,
   /- 0x90: -/ 0, 0, 0, 0, 0, 0, 0, 0,
   /- 0x98: -/ 0, 0, 0, 0, 0, 0, 0, 0,
   /- 0xa0: -/ 0, 0, 0, 0, 0, 0, 0, 0,
   /- 0xa8: -/ 0, 0, 0, 0, 0, 0, 0, 0,
   /- 0xb0: -/ 0, 0, 0, 0, 0, 0, 0, 0,
   /- 0xb8: -/ 0, 0, 0, 0, 0, 0, 0, 0,
   /- 0xc0: -/ 0, 0, 0, 0, 0, 0, 0, 0,
   /- 0xc8: -/ 0, 0, 0, 0, 0, 0, 0, 0,
   /- 0xd0: -/ 0, 0, 0, 0, 0, 0, 0, 0,
   /- 0xd8: -/ 0, 0, 0, 0, 0, 0, 0, 0,
   /- 0xe0: -/ 0, 0, 0, 0, 0, 0, 0, 0,
   /- 0xe8: -/ 0, 0, 0, 0, 0, 0, 0, 0,
   /- 0xf0: -/ 0, 0, 0, 0, 0, 0, 0, 0,
   /- 0xf8: -/ 0, 0, 0, 0, 0, 0, 0, 0]

/-- `EnvelopeGenerator::exponential_counter_period[]`. -/
def exponential_counter_period : List Nat :=
  [1, 2, 4, 8, 16, 30]

/-- `EnvelopeGenerator::sustain_level[]` — the sustain nibble replicated to a
byte. -/
def sustain_level : List Nat :=
  [0x00, 0x11, 0x22, 0x33, 0x44, 0x55, 0x66, 0x77,
   0x88, 0x99, 0xaa, 0xbb, 0xcc, 0xdd, 0xee, 0xff]

/-- Result of one call to `EnvelopeGenerator::step_envelope`: the returned
`delta_envelope`, the remaining `delta_t` (passed by reference in C++), and
the updated rate and exponential counters. -/
structure StepResult where
  delta_envelope : Nat
  delta_t : Nat
  rate_counter : Nat
  exponential_counter : Nat
deriving DecidableEq, Repr

/-- The initial `rate_step` of `step_envelope`:
`rate_counter < rate_period ? rate_period - rate_counter
                            : 0x8000 + rate_period - rate_counter`
(the ADSR-delay-bug wrap through `0x8000`). -/
def rate_step_init (rate_period rate_counter : Nat) : Nat :=
  if rate_counter < rate_period then rate_period - rate_counter
  else 0x8000 + rate_period - rate_counter

/-- The `while (delta_t)` loop of `EnvelopeGenerator::step_envelope`, with an
explicit fuel.  Each loop iteration consumes `rate_step ≥ 1` cycles of
`delta_t`, so any `fuel ≥ delta_t` computes the loop exactly.
State threaded through: remaining `delta_t`, current `rate_step`, the 15-bit
`rate_counter` (masked `& 0x7fff`), the 16-bit `exponential_counter`
(incremented mod `2^16`), and the accumulated `delta_envelope`. -/
def step_envelope_loop (rate_period exponential_period delta_envelope_max : Nat) :
    Nat → Nat → Nat → Nat → Nat → Nat → StepResult
  | 0, delta_t, _, rc, ec, denv => ⟨denv, delta_t, rc, ec⟩
  | fuel + 1, delta_t, rate_step, rc, ec, denv =>
    if delta_t = 0 then ⟨denv, delta_t, rc, ec⟩
    else if delta_t < rate_step then ⟨denv, 0, (rc + delta_t) % 0x8000, ec⟩
    else
      -- rate_counter = 0; delta_t -= rate_step; rate_step = rate_period
      let delta_t' := delta_t - rate_step
      let ec' := (ec + 1) % 0x10000
      if ec' = exponential_period then
        if delta_envelope_max ≠ 0 then
          if denv + 1 = delta_envelope_max then ⟨denv + 1, delta_t', 0, 0⟩
          else step_envelope_loop rate_period exponential_period delta_envelope_max
            fuel delta_t' rate_period 0 0 (denv + 1)
        else step_envelope_loop rate_period exponential_period delta_envelope_max
          fuel delta_t' rate_period 0 0 denv
      else step_envelope_loop rate_period exponential_period delta_envelope_max
        fuel delta_t' rate_period 0 ec' denv

/-- `EnvelopeGenerator::step_envelope(delta_envelope_max, rate_period_index,
exponential_period_index, delta_t)`. -/
def step_envelope (e : EnvelopeGenerator)
    (delta_envelope_max rate_period_index exponential_period_index delta_t : Nat) :
    StepResult :=
  let rate_period := rate_counter_period.getD rate_period_index 0
  let exponential_period := exponential_counter_period.getD exponential_period_index 0
  step_envelope_loop rate_period exponential_period delta_envelope_max
    delta_t delta_t (rate_step_init rate_period e.rate_counter)
    e.rate_counter e.exponential_counter 0

/-- 8-bit subtraction `envelope_counter -= delta_envelope` on a `reg8`. -/
def sub8 (a b : Nat) : Nat := (a + 256 - b % 256) % 256

/-- The `delta_envelope_max` computed in the decay/sustain branch of
`EnvelopeGenerator::clock`:
`int delta_envelope_max = envelope_counter - min_level;`
`if (delta_envelope_max < 0) delta_envelope_max = envelope_counter;`
where `min_level` is the current segment level clamped from below by the
sustain level. -/
def decay_dmax (e : EnvelopeGenerator) : Nat :=
  let segment := exponential_counter_segment.getD e.envelope_counter 0
  let lvl := exponential_counter_level.getD segment 0
  let sus := sustain_level.getD e.sustain 0
  let min_level := if lvl < sus then sus else lvl
  if min_level ≤ e.envelope_counter then e.envelope_counter - min_level
  else e.envelope_counter

/-- One iteration of the decay/sustain `while (delta_t)` loop of
`EnvelopeGenerator::clock`: returns the remaining `delta_t` and the updated
generator. -/
def clock_decay_step (delta_t : Nat) (e : EnvelopeGenerator) : Nat × EnvelopeGenerator :=
  let segment := exponential_counter_segment.getD e.envelope_counter 0
  let r := step_envelope e (decay_dmax e) e.decay segment delta_t
  (r.delta_t,
   { e with envelope_counter := sub8 e.envelope_counter r.delta_envelope,
            rate_counter := r.rate_counter,
            exponential_counter := r.exponential_counter })

/-- The decay/sustain `while (delta_t)` loop of `EnvelopeGenerator::clock`.
Each iteration consumes at least one cycle (the case `delta_envelope_max = 0`
consumes all of `delta_t`), so `fuel ≥ delta_t + 1` computes the loop
exactly. -/
def clock_decay_loop : Nat → Nat → EnvelopeGenerator → EnvelopeGenerator
  | 0, _, e => e
  | fuel + 1, delta_t, e =>
    if delta_t = 0 then e
    else
      let s := clock_decay_step delta_t e
      clock_decay_loop fuel s.1 s.2

/-- `delta_envelope_max` of the release branch: no sustain clamp. -/
def release_dmax (e : EnvelopeGenerator) : Nat :=
  let segment := exponential_counter_segment.getD e.envelope_counter 0
  e.envelope_counter - exponential_counter_level.getD segment 0

/-- One iteration of the release `while (delta_t)` loop — identical to
decay/sustain except for the sustain-level clamp. -/
def clock_release_step (delta_t : Nat) (e : EnvelopeGenerator) : Nat × EnvelopeGenerator :=
  let segment := exponential_counter_segment.getD e.envelope_counter 0
  let r := step_envelope e (release_dmax e) e.release segment delta_t
  (r.delta_t,
   { e with envelope_counter := sub8 e.envelope_counter r.delta_envelope,
            rate_counter := r.rate_counter,
            exponential_counter := r.exponential_counter })

/-- The release `while (delta_t)` loop of `EnvelopeGenerator::clock`. -/
def clock_release_loop : Nat → Nat → EnvelopeGenerator → EnvelopeGenerator
  | 0, _, e => e
  | fuel + 1, delta_t, e =>
    if delta_t = 0 then e
    else
      let s := clock_release_step delta_t e
      clock_release_loop fuel s.1 s.2

/-- `EnvelopeGenerator::clock(delta_t)`. -/
def clock (delta_t : Nat) (e : EnvelopeGenerator) : EnvelopeGenerator :=
  if e.state = EnvPhase.ATTACK then
    let r := step_envelope e (0xff - e.envelope_counter) e.attack 0 delta_t
    let e' := { e with envelope_counter := (e.envelope_counter + r.delta_envelope) % 256,
                       rate_counter := r.rate_counter,
                       exponential_counter := r.exponential_counter }
    if e'.envelope_counter ≠ 0xff then e'
    else clock_decay_loop (r.delta_t + 1) r.delta_t
      { e' with state := EnvPhase.DECAY_SUSTAIN }
  else if e.state = EnvPhase.DECAY_SUSTAIN then
    clock_decay_loop (delta_t + 1) delta_t e
  else
    clock_release_loop (delta_t + 1) delta_t e

/-- `EnvelopeGenerator::writeCONTROL_REG` — only the gate bit reaches the
envelope generator; flipping it resets the exponential counter but not the
rate counter (the ADSR delay bug source). -/
def writeCONTROL_REG (control : Nat) (e : EnvelopeGenerator) : EnvelopeGenerator :=
  let gate_next := control % 2 = 1
  if ¬e.gate ∧ gate_next then
    { e with state := EnvPhase.ATTACK, exponential_counter := 0, gate := gate_next }
  else if e.gate ∧ ¬gate_next then
    { e with state := EnvPhase.RELEASE, exponential_counter := 0, gate := gate_next }
  else { e with gate := gate_next }

/-- `EnvelopeGenerator::writeATTACK_DECAY`. -/
def writeATTACK_DECAY (attack_decay : Nat) (e : EnvelopeGenerator) : EnvelopeGenerator :=
  { e with attack := attack_decay / 16 % 16, decay := attack_decay % 16 }

/-- `EnvelopeGenerator::writeSUSTAIN_RELEASE`. -/
def writeSUSTAIN_RELEASE (sustain_release : Nat) (e : EnvelopeGenerator) : EnvelopeGenerator :=
  { e with sustain := sustain_release / 16 % 16, release := sustain_release % 16 }

/-- `EnvelopeGenerator::reset`. -/
def reset : EnvelopeGenerator :=
  { rate_counter := 0
    exponential_counter := 0
    envelope_counter := 0
    attack := 0
    decay := 0
    sustain := 0
    release := 0
    gate := false
    state := EnvPhase.RELEASE }

/-- `EnvelopeGenerator::output` — the 8-bit envelope counter. -/
def output (e : EnvelopeGenerator) : Nat := e.envelope_counter

/-- Representation invariants maintained by the register interface: the
envelope counter is 8 bits, the rate counter 15 bits, and the four ADSR
register nibbles 4 bits. -/
def WellFormed (e : EnvelopeGenerator) : Prop :=
  e.envelope_counter ≤ 255 ∧ e.rate_counter ≤ 0x7fff ∧
  e.attack ≤ 15 ∧ e.decay ≤ 15 ∧ e.sustain ≤ 15 ∧ e.release ≤ 15

/-- States on which `clock` composes over time.  Excluded are the two
non-compositional corners of the bulk algorithm: the gate raised while the
envelope counter sits at `0xff` (the decay rate index takes over only on the
next `clock` call), and a sustain level raised above the envelope counter in
decay/sustain (the exponential period is then frozen across segment
boundaries for the rest of the current call). -/
def GoodState (e : EnvelopeGenerator) : Prop :=
  (e.state = EnvPhase.ATTACK → e.envelope_counter ≠ 255) ∧
  (e.state = EnvPhase.DECAY_SUSTAIN →
    sustain_level.getD e.sustain 0 ≤ e.envelope_counter)

/-- Envelope generator states reachable through the public interface:
`reset`, the three register writes, and `clock`. -/
inductive Reachable : EnvelopeGenerator → Prop
  | reset : Reachable reset
  | writeCONTROL_REG (control : Nat) {e : EnvelopeGenerator} :
      Reachable e → Reachable (writeCONTROL_REG control e)
  | writeATTACK_DECAY (v : Nat) {e : EnvelopeGenerator} :
      Reachable e → Reachable (writeATTACK_DECAY v e)
  | writeSUSTAIN_RELEASE (v : Nat) {e : EnvelopeGenerator} :
      Reachable e → Reachable (writeSUSTAIN_RELEASE v e)
  | clock (delta_t : Nat) {e : EnvelopeGenerator} :
      Reachable e → Reachable (clock delta_t e)

/-- Scenario state for the additivity counterexample: from reset, select
attack rate 0 (period 9), raise the gate, run the full attack (255 envelope
steps in 2295 cycles, ending at counter `0xff` in decay/sustain), then drop
and raise the gate again.  The generator is back in ATTACK with the envelope
counter stuck at `0xff`. -/
def attack_full : EnvelopeGenerator :=
  writeCONTROL_REG 1 (writeCONTROL_REG 0
    (clock 2295 (writeCONTROL_REG 1 (writeATTACK_DECAY 0 reset))))

/-- Scenario state of the spec's S2 (ADSR delay bug) test: reset, attack
rate 0, gate on at cycle 0, 8 cycles clocked, then `ATTACK_DECAY := 0xf0`
(attack rate 15, period 31252). -/
def adsr_bug_state : EnvelopeGenerator :=
  writeATTACK_DECAY 0xf0 (clock 8 (writeCONTROL_REG 1 (writeATTACK_DECAY 0 reset)))

/-- From reset, program attack rate `i` and raise the gate. -/
def gate_on (i : Nat) : EnvelopeGenerator :=
  writeCONTROL_REG 1 (writeATTACK_DECAY (i * 16) reset)

end EnvelopeGenerator

/-! ## WaveformGenerator (src/src/sid/wave.h, src/src/sid/wave.cc)

`reg24` is an `unsigned int`; intermediate sums live modulo `2^32` and the
stored accumulator is masked to 24 bits.  Bit tests `x & 0x080000`,
`x & 0x800000` are written `x / 0x80000 % 2 = 1` etc. -/

structure WaveformGenerator where
  msb_rising : Bool
  accumulator : Nat
  shift_register : Nat
  freq : Nat
  pw : Nat
  waveform : Nat
  test : Bool
  ring_mod : Bool
  sync : Bool

namespace WaveformGenerator

/-- One iteration of the noise shift loop of `WaveformGenerator::clock`:
`bit0 = ((shift_register >> 22) ^ (shift_register >> 17)) & 0x1;`
`shift_register <<= 1; shift_register &= 0x7fffff; shift_register |= bit0;`
(`& 0x1` is `% 2`, `& 0x7fffff` is `% 0x800000`, and since bit 0 of the
shifted value is clear the final or is an addition). -/
def lfsr_shift (shift_register : Nat) : Nat :=
  let bit0 := ((shift_register >>> 22) ^^^ (shift_register >>> 17)) % 2
  shift_register * 2 % 0x800000 + bit0

/-- The `for (i = 0; i < shifts; i++)` loop shifting the noise register. -/
def lfsr_iter : Nat → Nat → Nat
  | 0, sr => sr
  | n + 1, sr => lfsr_iter n (lfsr_shift sr)

/-- `WaveformGenerator::clock(cycle_count delta_t)`. -/
def clock (delta_t : Nat) (w : WaveformGenerator) : WaveformGenerator :=
  if w.test then w
  else
    let delta_accumulator := delta_t * w.freq % 0x100000000
    let accumulator_next := (w.accumulator + delta_accumulator) % 0x100000000
    let shift_period := 0x100000
    let shifts := delta_accumulator / shift_period
    let accumulator_prev := (w.accumulator + shift_period * shifts) % 0x100000000
    let shifts' :=
      if accumulator_prev / 0x080000 % 2 = 0 ∧ accumulator_next / 0x080000 % 2 = 1
      then shifts + 1 else shifts
    { w with
      shift_register := lfsr_iter shifts' w.shift_register,
      msb_rising :=
        decide (w.accumulator / 0x800000 % 2 = 0 ∧ accumulator_next / 0x800000 % 2 = 1),
      accumulator := accumulator_next % 0x1000000 }

/-- `WaveformGenerator::writeCONTROL_REG`. -/
def writeCONTROL_REG (control : Nat) (w : WaveformGenerator) : WaveformGenerator :=
  let w' := { w with waveform := control / 16 % 16,
                     ring_mod := decide (control / 4 % 2 = 1),
                     sync := decide (control / 2 % 2 = 1) }
  if control / 8 % 2 = 1 then
    { w' with test := true, accumulator := 0, shift_register := 0 }
  else if w.test then
    { w' with test := false, shift_register := 0x7ffff8 }
  else
    { w' with test := false }

/-- `WaveformGenerator::writeFREQ_LO`: `freq = freq & 0xff00 | freq_lo & 0x00ff`. -/
def writeFREQ_LO (freq_lo : Nat) (w : WaveformGenerator) : WaveformGenerator :=
  { w with freq := w.freq / 256 * 256 + freq_lo % 256 }

/-- `WaveformGenerator::writeFREQ_HI`: `freq = (freq_hi << 8) & 0xff00 | freq & 0x00ff`. -/
def writeFREQ_HI (freq_hi : Nat) (w : WaveformGenerator) : WaveformGenerator :=
  { w with freq := freq_hi % 256 * 256 + w.freq % 256 }

/-- `WaveformGenerator::writePW_LO`: `pw = pw & 0xf00 | pw_lo & 0x0ff`. -/
def writePW_LO (pw_lo : Nat) (w : WaveformGenerator) : WaveformGenerator :=
  { w with pw := w.pw / 256 % 16 * 256 + pw_lo % 256 }

/-- `WaveformGenerator::writePW_HI`: `pw = (pw_hi << 8) & 0xf00 | pw & 0x0ff`. -/
def writePW_HI (pw_hi : Nat) (w : WaveformGenerator) : WaveformGenerator :=
  { w with pw := pw_hi % 16 * 256 + w.pw % 256 }

/-- `WaveformGenerator::reset` — note `waveform` is not touched. -/
def reset (w : WaveformGenerator) : WaveformGenerator :=
  { w with accumulator := 0, shift_register := 0x7ffff8, freq := 0, pw := 0,
           test := false, ring_mod := false, sync := false, msb_rising := false }

end WaveformGenerator

/-! ## ExternalFilter (src/src/extfilt.h)

Filter states are C `int`s, modelled as unbounded `Int` (no reachable state
overflows 32 bits).  The arithmetic right shift `>> n` of a possibly negative
value is floor division, `Int.fdiv x (2^n)`; `vi << 11` is `vi * 2048`. -/

/-- Integer filter coefficients of `ExternalFilterCoefficients`.  The
`constexpr` constructor computes, for cutoff `w0` and time step `T`:
`shift = (int)log2(15.0/(1 - e^(-w0 T)))`, `mul = (int)((1 - e^(-w0 T)) * 2^shift + 0.5)`. -/
structure ExternalFilterCoefficients where
  shiftlp : Nat
  shifthp : Nat
  mullp : Int
  mulhp : Int

namespace ExternalFilter

/-- `t1 = ExternalFilterCoefficients(1e5, 1e2, 1e-6)`:
`1 - e^(-0.1) = 0.0951626`, `shiftlp = (int)log2(15/0.0951626) = 7`,
`mullp = (int)(0.0951626 * 128 + 0.5) = 12`; `1 - e^(-1e-4) = 9.9995e-5`,
`shifthp = (int)log2(15/9.9995e-5) = 17`, `mulhp = (int)(9.9995e-5 * 131072 + 0.5) = 13`. -/
def t1 : ExternalFilterCoefficients := ⟨7, 17, 12, 13⟩

/-- `tmax = ExternalFilterCoefficients(1e5, 1e2, 1e-5)` (MAX_CYCLES = 10):
`1 - e^(-1) = 0.632121`, `shiftlp = (int)log2(15/0.632121) = 4`,
`mullp = (int)(0.632121 * 16 + 0.5) = 10`; `1 - e^(-1e-3) = 9.995e-4`,
`shifthp = (int)log2(15/9.995e-4) = 13`, `mulhp = (int)(9.995e-4 * 8192 + 0.5) = 8`. -/
def tmax : ExternalFilterCoefficients := ⟨4, 13, 10, 8⟩

end ExternalFilter

structure ExternalFilter where
  enabled : Bool
  vlp : Int
  vhp : Int

namespace ExternalFilter

/-- `ExternalFilter::clock(short vi)` — the single-cycle overload. -/
def clock1 (vi : Int) (f : ExternalFilter) : ExternalFilter :=
  if f.enabled = false then { f with vlp := vi * 2048, vhp := 0 }
  else
    { f with
      vhp := f.vhp + Int.fdiv (t1.mulhp * (f.vlp - f.vhp)) (2 ^ t1.shifthp),
      vlp := f.vlp + Int.fdiv (t1.mullp * (vi * 2048 - f.vlp)) (2 ^ t1.shiftlp) }

/-- `while (delta_t--) clock(vi);` of the multi-cycle overload. -/
def clock_iter : Nat → Int → ExternalFilter → ExternalFilter
  | 0, _, f => f
  | n + 1, vi, f => clock_iter n vi (clock1 vi f)

/-- The `while (delta_t)` loop of `ExternalFilter::clock(delta_t, vi)`:
chunks of `MAX_CYCLES = 10` with the `tmax` coefficients, a tail of fewer
than 10 single cycles.  Each chunk consumes 10 cycles, so `fuel = delta_t`
always suffices. -/
def clock_loop : Nat → Nat → Int → ExternalFilter → ExternalFilter
  | 0, _, _, f => f
  | fuel + 1, delta_t, vi, f =>
    if delta_t = 0 then f
    else if delta_t < 10 then clock_iter delta_t vi f
    else clock_loop fuel (delta_t - 10) vi
      { f with
        vhp := f.vhp + Int.fdiv (tmax.mulhp * (f.vlp - f.vhp)) (2 ^ tmax.shifthp),
        vlp := f.vlp + Int.fdiv (tmax.mullp * (vi * 2048 - f.vlp)) (2 ^ tmax.shiftlp) }

/-- `ExternalFilter::clock(cycle_count delta_t, short vi)`. -/
def clock (delta_t : Nat) (vi : Int) (f : ExternalFilter) : ExternalFilter :=
  if f.enabled = false then { f with vlp := vi * 2048, vhp := 0 }
  else clock_loop delta_t delta_t vi f

/-- Conversion of a C `int` value to `short` (two's-complement wrap). -/
def toShort (x : Int) : Int := (x + 32768) % 65536 - 32768

/-- `short ExternalFilter::output()`: `return (vlp - vhp) >> 11;` — the
`int` expression is converted to the 16-bit return type. -/
def output (f : ExternalFilter) : Int := toShort (Int.fdiv (f.vlp - f.vhp) 2048)

/-- `ExternalFilter::reset` (spec-modelled: `extfilt.cc` is not in the
repository; the spec states that after reset all filter states are zero,
and the filter is enabled by default). -/
def reset : ExternalFilter := ⟨true, 0, 0⟩

/-- External-filter states reachable through its interface, inputs limited
to the `short` range of `vi`.  `enable_filter` (also in the missing
`extfilt.cc`) is modelled as setting the `enabled` flag. -/
inductive Reachable : ExternalFilter → Prop
  | reset : Reachable reset
  | enable_filter (b : Bool) {f : ExternalFilter} :
      Reachable f → Reachable { f with enabled := b }
  | clock1 (vi : Int) {f : ExternalFilter} :
      -32768 ≤ vi → vi ≤ 32767 → Reachable f → Reachable (clock1 vi f)
  | clock (delta_t : Nat) (vi : Int) {f : ExternalFilter} :
      -32768 ≤ vi → vi ≤ 32767 → Reachable f → Reachable (clock delta_t vi f)

/-- A reachable filter state driven into overshoot: 300 cycles of the most
negative input followed by 200 cycles of the most positive one leaves
`(vlp - vhp) >> 11 = 33112`, above the `short` range. -/
def overdrive_state : ExternalFilter :=
  clock 200 32767 (clock 300 (-32768) reset)

end ExternalFilter

/-- The waveform generator state after reset (`waveform = 0`). -/
def wave0 : WaveformGenerator :=
  ⟨false, 0, 0x7ffff8, 0, 0, 0, false, false, false⟩

/-- The clamp to the signed 16-bit range, following the spec's words
("clamped to signed 16 bits") — for comparison with the code's `output`. -/
def clamp16 (x : Int) : Int :=
  if x < -32768 then -32768 else if 32767 < x then 32767 else x

namespace SID

/-- `int SID::output()`: `return -filter.output()/(4095*255*3*15*2/65536);`
as a function of the filter output `v`.  C `int` division truncates toward
zero, `Int.tdiv`; the divisor is a positive constant. -/
def output (v : Int) : Int := Int.tdiv (-v) ((4095 * 255 * 3 * 15 * 2 / 65536 : Nat) : Int)

/-- `int SID::output(int bits)`: `return -filter.output()/(4095*255*3*15*2/(2 << bits));`. -/
def output_bits (bits : Nat) (v : Int) : Int :=
  Int.tdiv (-v) ((4095 * 255 * 3 * 15 * 2 / (2 <<< bits) : Nat) : Int)

end SID

namespace EnvelopeGenerator

/-! ### Facts about the lookup tables -/

theorem exponential_counter_segment_length : exponential_counter_segment.length = 256 := by
  rfl

/-- The 256-entry segment table agrees with its threshold description. -/
theorem segment_getD_eq : ∀ c < 256, exponential_counter_segment.getD c 0 =
    (if 0x5d < c then 0 else if 0x36 < c then 1 else if 0x1a < c then 2
     else if 0x0e < c then 3 else if 0x06 < c then 4 else 5) := by
  decide

theorem segment_le_five {c : Nat} : exponential_counter_segment.getD c 0 ≤ 5 := by
  by_cases h : c < 256
  · rw [segment_getD_eq c h]
    split_ifs <;> omega
  · have hlen : exponential_counter_segment.length ≤ c := by
      rw [exponential_counter_segment_length]; omega
    rw [List.getD_eq_default _ _ hlen]
    omega

/-- Threshold form of the zone stability fact behind the piecewise-exponential
decay: while the envelope counter stays strictly above the level at which the
current line segment ends, the segment number does not change. -/
theorem segment_stable_thresh : ∀ c < 256, ∀ c' ≤ c,
    exponential_counter_level.getD
      (if 0x5d < c then 0 else if 0x36 < c then 1 else if 0x1a < c then 2
       else if 0x0e < c then 3 else if 0x06 < c then 4 else 5) 0 < c' →
    (if 0x5d < c' then 0 else if 0x36 < c' then 1 else if 0x1a < c' then 2
     else if 0x0e < c' then 3 else if 0x06 < c' then 4 else 5) =
    (if 0x5d < c then 0 else if 0x36 < c then 1 else if 0x1a < c then 2
     else if 0x0e < c then 3 else if 0x06 < c then 4 else 5) := by
  decide

theorem segment_stable {c c' : Nat} (hc : c < 256) (h1 : c' ≤ c)
    (h2 : exponential_counter_level.getD (exponential_counter_segment.getD c 0) 0 < c') :
    exponential_counter_segment.getD c' 0 = exponential_counter_segment.getD c 0 := by
  rw [segment_getD_eq c hc] at h2
  rw [segment_getD_eq c hc, segment_getD_eq c' (by omega)]
  exact segment_stable_thresh c hc c' h1 h2

theorem rate_period_bounds : ∀ i ≤ 15,
    9 ≤ rate_counter_period.getD i 0 ∧ rate_counter_period.getD i 0 ≤ 31252 := by
  decide

/-! ### Fuel irrelevance and basic bounds for `step_envelope_loop` -/

theorem step_envelope_loop_fuel (rp ep dmax : Nat) (hrp : 1 ≤ rp) :
    ∀ f1 f2 dt rs rc ec d, 1 ≤ rs → dt ≤ f1 → dt ≤ f2 →
      step_envelope_loop rp ep dmax f1 dt rs rc ec d =
      step_envelope_loop rp ep dmax f2 dt rs rc ec d := by
  intro f1
  induction f1 with
  | zero =>
    intro f2 dt rs rc ec d hrs h1 h2
    have hdt : dt = 0 := by omega
    subst hdt
    cases f2 with
    | zero => rfl
    | succ g => simp [step_envelope_loop]
  | succ f ih =>
    intro f2 dt rs rc ec d hrs h1 h2
    cases f2 with
    | zero =>
      have hdt : dt = 0 := by omega
      subst hdt
      simp [step_envelope_loop]
    | succ g =>
      by_cases h0 : dt = 0
      · simp [step_envelope_loop, h0]
      · by_cases hlt : dt < rs
        · simp [step_envelope_loop, h0, hlt]
        · simp only [step_envelope_loop, if_neg h0, if_neg hlt]
          split_ifs <;> (try rfl) <;> apply ih <;> omega

theorem step_envelope_loop_delta_t_le (rp ep dmax : Nat) :
    ∀ fuel dt rs rc ec d,
      (step_envelope_loop rp ep dmax fuel dt rs rc ec d).delta_t ≤ dt := by
  intro fuel
  induction fuel with
  | zero => intro dt rs rc ec d; exact le_refl _
  | succ f ih =>
    intro dt rs rc ec d
    by_cases h0 : dt = 0
    · simp [step_envelope_loop, h0]
    · by_cases hlt : dt < rs
      · simp [step_envelope_loop, h0, hlt]
      · simp only [step_envelope_loop, if_neg h0, if_neg hlt]
        split_ifs
        · dsimp only; omega
        · have := ih (dt - rs) rp 0 0 (d + 1); omega
        · have := ih (dt - rs) rp 0 0 d; omega
        · have := ih (dt - rs) rp 0 ((ec + 1) % 0x10000) d; omega

theorem step_envelope_loop_denv_zero (rp ep : Nat) :
    ∀ fuel dt rs rc ec d,
      (step_envelope_loop rp ep 0 fuel dt rs rc ec d).delta_envelope = d := by
  intro fuel
  induction fuel with
  | zero => intro dt rs rc ec d; rfl
  | succ f ih =>
    intro dt rs rc ec d
    by_cases h0 : dt = 0
    · simp [step_envelope_loop, h0]
    · by_cases hlt : dt < rs
      · simp [step_envelope_loop, h0, hlt]
      · simp only [step_envelope_loop, if_neg h0, if_neg hlt]
        by_cases hec : (ec + 1) % 0x10000 = ep
        · rw [if_pos hec, if_neg (show ¬(0 : Nat) ≠ 0 from fun h => h rfl)]
          exact ih _ _ _ _ _
        · rw [if_neg hec]
          exact ih _ _ _ _ _

theorem step_envelope_loop_denv_le (rp ep dmax : Nat) :
    ∀ fuel dt rs rc ec d, d < dmax →
      (step_envelope_loop rp ep dmax fuel dt rs rc ec d).delta_envelope ≤ dmax := by
  intro fuel
  induction fuel with
  | zero => intro dt rs rc ec d hd; dsimp only [step_envelope_loop]; omega
  | succ f ih =>
    intro dt rs rc ec d hd
    by_cases h0 : dt = 0
    · simp [step_envelope_loop, h0]; omega
    · by_cases hlt : dt < rs
      · simp [step_envelope_loop, h0, hlt]; omega
      · simp only [step_envelope_loop, if_neg h0, if_neg hlt]
        split_ifs with hec hdm hhit
        · dsimp only; omega
        · exact ih _ _ _ _ _ (by omega)
        · omega
        · exact ih _ _ _ _ _ hd

theorem step_envelope_loop_denv_le_dt (rp ep dmax : Nat) (hrp : 1 ≤ rp) :
    ∀ fuel dt rs rc ec d, 1 ≤ rs →
      (step_envelope_loop rp ep dmax fuel dt rs rc ec d).delta_envelope ≤ d + dt := by
  intro fuel
  induction fuel with
  | zero => intro dt rs rc ec d hrs; dsimp only [step_envelope_loop]; omega
  | succ f ih =>
    intro dt rs rc ec d hrs
    by_cases h0 : dt = 0
    · simp [step_envelope_loop, h0]
    · by_cases hlt : dt < rs
      · simp [step_envelope_loop, h0, hlt]
      · simp only [step_envelope_loop, if_neg h0, if_neg hlt]
        split_ifs with hec hdm hhit
        · dsimp only; omega
        · have := ih (dt - rs) rp 0 0 (d + 1) hrp; omega
        · have := ih (dt - rs) rp 0 0 d hrp; omega
        · have := ih (dt - rs) rp 0 ((ec + 1) % 0x10000) d hrp; omega

theorem step_envelope_loop_rc_le (rp ep dmax : Nat) :
    ∀ fuel dt rs rc ec d, rc ≤ 0x7fff →
      (step_envelope_loop rp ep dmax fuel dt rs rc ec d).rate_counter ≤ 0x7fff := by
  intro fuel
  induction fuel with
  | zero => intro dt rs rc ec d h; exact h
  | succ f ih =>
    intro dt rs rc ec d h
    by_cases h0 : dt = 0
    · simpa [step_envelope_loop, h0] using h
    · by_cases hlt : dt < rs
      · simp [step_envelope_loop, h0, hlt]; omega
      · simp only [step_envelope_loop, if_neg h0, if_neg hlt]
        split_ifs
        · dsimp only; omega
        · exact ih _ _ _ _ _ (by omega)
        · exact ih _ _ _ _ _ (by omega)
        · exact ih _ _ _ _ _ (by omega)

theorem step_envelope_loop_dt_lt (rp ep dmax : Nat) (_hrp : 1 ≤ rp) :
    ∀ fuel dt rs rc ec d, 1 ≤ dt → dt ≤ fuel → 1 ≤ rs →
      (step_envelope_loop rp ep dmax fuel dt rs rc ec d).delta_t < dt := by
  intro fuel
  induction fuel with
  | zero => intro dt rs rc ec d h1 h2 hrs; omega
  | succ f ih =>
    intro dt rs rc ec d h1 h2 hrs
    have h0 : ¬dt = 0 := by omega
    by_cases hlt : dt < rs
    · simp [step_envelope_loop, h0, hlt]; omega
    · simp only [step_envelope_loop, if_neg h0, if_neg hlt]
      split_ifs
      · dsimp only; omega
      · have := step_envelope_loop_delta_t_le rp ep dmax f (dt - rs) rp 0 0 (d + 1)
        omega
      · have := step_envelope_loop_delta_t_le rp ep dmax f (dt - rs) rp 0 0 d
        omega
      · have := step_envelope_loop_delta_t_le rp ep dmax f (dt - rs) rp 0
          ((ec + 1) % 0x10000) d
        omega

/-! ### Single-cycle peeling for `step_envelope_loop`

The rate counter machinery satisfies a coupling invariant: inside the loop the
current `rate_step` always equals `rate_step_init rate_period rate_counter`
(initially by definition, and after every comparison match the counter is `0`
and the step is reloaded with `rate_period`).  The lemmas below peel exactly
one cycle off the front of a multi-cycle `step_envelope` call. -/

theorem rate_step_init_pos {rp rc : Nat} (hrp : 1 ≤ rp) (hrc : rc ≤ 0x7fff) :
    1 ≤ rate_step_init rp rc := by
  unfold rate_step_init
  split_ifs <;> omega

theorem rate_step_init_zero (rp : Nat) (hrp : 1 ≤ rp) : rate_step_init rp 0 = rp := by
  unfold rate_step_init
  split_ifs <;> omega

theorem rate_step_init_succ {rp rc : Nat} (hrc : rc ≤ 0x7fff) (hrp : rp ≤ 0x7fff)
    (h2 : 2 ≤ rate_step_init rp rc) :
    rate_step_init rp ((rc + 1) % 0x8000) = rate_step_init rp rc - 1 := by
  unfold rate_step_init at *
  split_ifs at * <;> omega

/-- Peeling one cycle that does not hit the rate counter comparison value. -/
theorem step_envelope_loop_peel_nomatch (rp ep dmax : Nat) (hrp : 1 ≤ rp) :
    ∀ f1 f2 dt rs rc ec d, 2 ≤ rs → dt + 1 ≤ f1 → dt ≤ f2 →
      step_envelope_loop rp ep dmax f1 (dt + 1) rs rc ec d =
      step_envelope_loop rp ep dmax f2 dt (rs - 1) ((rc + 1) % 0x8000) ec d := by
  intro f1 f2 dt rs rc ec d hrs h1 h2
  match f1, h1 with
  | g + 1, _ =>
    by_cases h0 : dt = 0
    · subst h0
      have hlt : (1 : Nat) < rs := by omega
      cases f2 with
      | zero => simp [step_envelope_loop, hlt]
      | succ h => simp [step_envelope_loop, hlt]
    · match f2, (show 1 ≤ f2 by omega) with
      | h + 1, _ =>
        by_cases hlt : dt + 1 < rs
        · have hlt' : dt < rs - 1 := by omega
          have hne : ¬dt + 1 = 0 := by omega
          simp only [step_envelope_loop, if_neg hne, if_pos hlt, if_neg h0, if_pos hlt']
          congr 1
          omega
        · have hlt' : ¬dt < rs - 1 := by omega
          have hne : ¬dt + 1 = 0 := by omega
          simp only [step_envelope_loop, if_neg hne, if_neg hlt, if_neg h0, if_neg hlt']
          have harg : dt + 1 - rs = dt - (rs - 1) := by omega
          rw [harg]
          split_ifs
          · rfl
          · exact step_envelope_loop_fuel rp ep dmax hrp _ _ _ _ _ _ _ (by omega)
              (by omega) (by omega)
          · exact step_envelope_loop_fuel rp ep dmax hrp _ _ _ _ _ _ _ (by omega)
              (by omega) (by omega)
          · exact step_envelope_loop_fuel rp ep dmax hrp _ _ _ _ _ _ _ (by omega)
              (by omega) (by omega)

/-- Peeling one cycle that hits the rate counter comparison value
(`rate_step = 1`): the follow-on behaviour in each of the exponential counter
cases. -/
theorem step_envelope_loop_peel_match (rp ep dmax : Nat) (hrp : 1 ≤ rp) :
    ∀ f1 f2 dt rc ec d, dt + 1 ≤ f1 → dt ≤ f2 →
      step_envelope_loop rp ep dmax f1 (dt + 1) 1 rc ec d =
      (if (ec + 1) % 0x10000 = ep then
        if dmax ≠ 0 then
          if d + 1 = dmax then ⟨d + 1, dt, 0, 0⟩
          else step_envelope_loop rp ep dmax f2 dt rp 0 0 (d + 1)
        else step_envelope_loop rp ep dmax f2 dt rp 0 0 d
      else step_envelope_loop rp ep dmax f2 dt rp 0 ((ec + 1) % 0x10000) d) := by
  intro f1 f2 dt rc ec d h1 h2
  match f1, h1 with
  | g + 1, _ =>
    have hne : ¬dt + 1 = 0 := by omega
    have hlt : ¬dt + 1 < 1 := by omega
    simp only [step_envelope_loop, if_neg hne, if_neg hlt]
    have harg : dt + 1 - 1 = dt := by omega
    rw [harg]
    split_ifs
    · rfl
    · exact step_envelope_loop_fuel rp ep dmax hrp _ _ _ _ _ _ _ (by omega)
        (by omega) (by omega)
    · exact step_envelope_loop_fuel rp ep dmax hrp _ _ _ _ _ _ _ (by omega)
        (by omega) (by omega)
    · exact step_envelope_loop_fuel rp ep dmax hrp _ _ _ _ _ _ _ (by omega)
        (by omega) (by omega)

/-- Shift the starting `delta_envelope` out of a loop run: a run that starts
with `d` envelope steps already accumulated (and exits at `dmax`) behaves as a
fresh run exiting at `dmax - d`, with `d` added to the result. -/
theorem step_envelope_loop_shift (rp ep : Nat) :
    ∀ fuel dmax dt rs rc ec d, d < dmax →
      step_envelope_loop rp ep dmax fuel dt rs rc ec d =
      (let r := step_envelope_loop rp ep (dmax - d) fuel dt rs rc ec 0
       ⟨r.delta_envelope + d, r.delta_t, r.rate_counter, r.exponential_counter⟩) := by
  intro fuel
  induction fuel with
  | zero => intro dmax dt rs rc ec d hd; simp [step_envelope_loop]
  | succ f ih =>
    intro dmax dt rs rc ec d hd
    by_cases h0 : dt = 0
    · simp [step_envelope_loop, h0]
    · by_cases hlt : dt < rs
      · simp [step_envelope_loop, h0, hlt]
      · simp only [step_envelope_loop, if_neg h0, if_neg hlt]
        by_cases hec : (ec + 1) % 0x10000 = ep
        · rw [if_pos hec, if_pos hec,
            if_pos (show dmax ≠ 0 by omega), if_pos (show dmax - d ≠ 0 by omega)]
          by_cases hhit : d + 1 = dmax
          · rw [if_pos hhit, if_pos (show 0 + 1 = dmax - d by omega)]
            simp
            omega
          · rw [if_neg hhit, if_neg (show ¬0 + 1 = dmax - d by omega)]
            rw [ih dmax _ _ _ _ (d + 1) (by omega)]
            rw [ih (dmax - d) _ _ _ _ 1 (by omega)]
            simp only []
            have harg : dmax - d - 1 = dmax - (d + 1) := by omega
            rw [harg]
            simp
            omega
        · rw [if_neg hec, if_neg hec]
          exact ih dmax _ _ _ _ d hd

/-! ### `step_envelope`-level consequences -/

theorem step_envelope_zero (e : EnvelopeGenerator) (dmax i g : Nat) :
    step_envelope e dmax i g 0 = ⟨0, 0, e.rate_counter, e.exponential_counter⟩ := rfl

theorem step_envelope_delta_t_le (e : EnvelopeGenerator) (dmax i g dt : Nat) :
    (step_envelope e dmax i g dt).delta_t ≤ dt :=
  step_envelope_loop_delta_t_le _ _ _ _ _ _ _ _ _

theorem step_envelope_dt_lt (e : EnvelopeGenerator) (dmax i g dt : Nat)
    (h1 : 1 ≤ dt) (hi : i ≤ 15) (hrc : e.rate_counter ≤ 0x7fff) :
    (step_envelope e dmax i g dt).delta_t < dt := by
  have hrp := (rate_period_bounds i hi).1
  exact step_envelope_loop_dt_lt _ _ _ (by omega) _ _ _ _ _ _ h1 (le_refl _)
    (rate_step_init_pos (by omega) hrc)

theorem step_envelope_denv_le (e : EnvelopeGenerator) (dmax i g dt : Nat) :
    (step_envelope e dmax i g dt).delta_envelope ≤ dmax := by
  rcases Nat.eq_zero_or_pos dmax with h | h
  · subst h
    exact le_of_eq (step_envelope_loop_denv_zero _ _ _ _ _ _ _ _)
  · exact step_envelope_loop_denv_le _ _ _ _ _ _ _ _ _ h

theorem step_envelope_denv_zero (e : EnvelopeGenerator) (i g dt : Nat) :
    (step_envelope e 0 i g dt).delta_envelope = 0 :=
  step_envelope_loop_denv_zero _ _ _ _ _ _ _ _

theorem step_envelope_rc_le (e : EnvelopeGenerator) (dmax i g dt : Nat)
    (hrc : e.rate_counter ≤ 0x7fff) :
    (step_envelope e dmax i g dt).rate_counter ≤ 0x7fff :=
  step_envelope_loop_rc_le _ _ _ _ _ _ _ _ _ hrc

/-- `step_envelope` only reads the rate and exponential counters of the
generator state. -/
theorem step_envelope_congr {e e' : EnvelopeGenerator}
    (h1 : e.rate_counter = e'.rate_counter)
    (h2 : e.exponential_counter = e'.exponential_counter) (dmax i g dt : Nat) :
    step_envelope e dmax i g dt = step_envelope e' dmax i g dt := by
  unfold step_envelope
  rw [h1, h2]

/-- One-cycle peel, no rate counter match in the first cycle. -/
theorem step_envelope_peel_nomatch (e : EnvelopeGenerator) (dmax i g dt : Nat)
    (hi : i ≤ 15) (hrc : e.rate_counter ≤ 0x7fff)
    (hrs : 2 ≤ rate_step_init (rate_counter_period.getD i 0) e.rate_counter) :
    step_envelope e dmax i g (dt + 1) =
    step_envelope { e with rate_counter := (e.rate_counter + 1) % 0x8000 } dmax i g dt := by
  have hrp := (rate_period_bounds i hi).1
  have hrp2 := (rate_period_bounds i hi).2
  unfold step_envelope
  simp only []
  rw [step_envelope_loop_peel_nomatch _ _ _ (by omega) _ dt _ _ _ _ _ hrs (le_refl _)
    (le_refl _)]
  rw [rate_step_init_succ hrc (by omega) hrs]

/-- One-cycle peel, rate counter match but no exponential counter match. -/
theorem step_envelope_peel_match_noexp (e : EnvelopeGenerator) (dmax i g dt : Nat)
    (hi : i ≤ 15)
    (hrs : rate_step_init (rate_counter_period.getD i 0) e.rate_counter = 1)
    (hec : (e.exponential_counter + 1) % 0x10000 ≠ exponential_counter_period.getD g 0) :
    step_envelope e dmax i g (dt + 1) =
    step_envelope
      { e with rate_counter := 0,
               exponential_counter := (e.exponential_counter + 1) % 0x10000 }
      dmax i g dt := by
  have hrp := (rate_period_bounds i hi).1
  unfold step_envelope
  simp only []
  rw [hrs, step_envelope_loop_peel_match _ _ _ (by omega) _ dt _ _ _ _ (le_refl _)
    (le_refl _)]
  rw [if_neg hec, rate_step_init_zero _ (by omega)]

/-- One-cycle peel, rate and exponential counter match, `delta_envelope_max = 0`
(the counters keep running without stepping the envelope). -/
theorem step_envelope_peel_match_exp0 (e : EnvelopeGenerator) (i g dt : Nat)
    (hi : i ≤ 15)
    (hrs : rate_step_init (rate_counter_period.getD i 0) e.rate_counter = 1)
    (hec : (e.exponential_counter + 1) % 0x10000 = exponential_counter_period.getD g 0) :
    step_envelope e 0 i g (dt + 1) =
    step_envelope { e with rate_counter := 0, exponential_counter := 0 } 0 i g dt := by
  have hrp := (rate_period_bounds i hi).1
  unfold step_envelope
  simp only []
  rw [hrs, step_envelope_loop_peel_match _ _ _ (by omega) _ dt _ _ _ _ (le_refl _)
    (le_refl _)]
  rw [if_pos hec, if_neg (show ¬(0 : Nat) ≠ 0 from fun h => h rfl),
    rate_step_init_zero _ (by omega)]

/-- One-cycle peel, both counters match and the envelope step reaches
`delta_envelope_max = 1`: early exit after the first cycle. -/
theorem step_envelope_peel_match_exp1 (e : EnvelopeGenerator) (i g dt : Nat)
    (hi : i ≤ 15)
    (hrs : rate_step_init (rate_counter_period.getD i 0) e.rate_counter = 1)
    (hec : (e.exponential_counter + 1) % 0x10000 = exponential_counter_period.getD g 0) :
    step_envelope e 1 i g (dt + 1) = ⟨1, dt, 0, 0⟩ := by
  have hrp := (rate_period_bounds i hi).1
  unfold step_envelope
  simp only []
  rw [hrs, step_envelope_loop_peel_match _ _ _ (by omega) _ dt _ _ _ _ (le_refl _)
    (le_refl _)]
  rw [if_pos hec, if_pos (show (1 : Nat) ≠ 0 from one_ne_zero),
    if_pos (show 0 + 1 = 1 from rfl)]

/-- One-cycle peel, both counters match, an envelope step is taken and the
run continues (`delta_envelope_max ≥ 2`). -/
theorem step_envelope_peel_match_exp2 (e : EnvelopeGenerator) (dmax i g dt : Nat)
    (hi : i ≤ 15) (hdm : 2 ≤ dmax)
    (hrs : rate_step_init (rate_counter_period.getD i 0) e.rate_counter = 1)
    (hec : (e.exponential_counter + 1) % 0x10000 = exponential_counter_period.getD g 0) :
    step_envelope e dmax i g (dt + 1) =
    ⟨(step_envelope { e with rate_counter := 0, exponential_counter := 0 }
        (dmax - 1) i g dt).delta_envelope + 1,
     (step_envelope { e with rate_counter := 0, exponential_counter := 0 }
        (dmax - 1) i g dt).delta_t,
     (step_envelope { e with rate_counter := 0, exponential_counter := 0 }
        (dmax - 1) i g dt).rate_counter,
     (step_envelope { e with rate_counter := 0, exponential_counter := 0 }
        (dmax - 1) i g dt).exponential_counter⟩ := by
  have hrp := (rate_period_bounds i hi).1
  unfold step_envelope
  simp only []
  rw [hrs, step_envelope_loop_peel_match _ _ _ (by omega) _ dt _ _ _ _ (le_refl _)
    (le_refl _)]
  rw [if_pos hec, if_pos (show dmax ≠ 0 by omega), if_neg (show ¬0 + 1 = dmax by omega)]
  rw [step_envelope_loop_shift _ _ _ _ _ _ _ _ 1 (by omega)]
  rw [rate_step_init_zero _ (by omega)]

/-! ### The decay/sustain and release loops -/

theorem sustain_level_le : ∀ s ≤ 15, sustain_level.getD s 0 ≤ 255 := by decide

theorem level_le_self : ∀ c < 256,
    exponential_counter_level.getD (exponential_counter_segment.getD c 0) 0 ≤ c := by
  decide

theorem decay_dmax_le (e : EnvelopeGenerator) : decay_dmax e ≤ e.envelope_counter := by
  simp only [decay_dmax]
  split_ifs <;> omega

theorem decay_dmax_le_sub (e : EnvelopeGenerator) (he : e.envelope_counter ≤ 255)
    (hs : sustain_level.getD e.sustain 0 ≤ e.envelope_counter) :
    decay_dmax e ≤ e.envelope_counter - sustain_level.getD e.sustain 0 := by
  have hl := level_le_self e.envelope_counter (by omega)
  simp only [decay_dmax]
  split_ifs <;> omega

theorem release_dmax_le (e : EnvelopeGenerator) : release_dmax e ≤ e.envelope_counter := by
  simp only [release_dmax]
  omega

theorem clock_decay_step_fields (dt : Nat) (e : EnvelopeGenerator) :
    (clock_decay_step dt e).2.state = e.state ∧
    (clock_decay_step dt e).2.gate = e.gate ∧
    (clock_decay_step dt e).2.attack = e.attack ∧
    (clock_decay_step dt e).2.decay = e.decay ∧
    (clock_decay_step dt e).2.sustain = e.sustain ∧
    (clock_decay_step dt e).2.release = e.release := by
  simp [clock_decay_step]

theorem clock_decay_step_lt (dt : Nat) (e : EnvelopeGenerator) (h1 : 1 ≤ dt)
    (hd : e.decay ≤ 15) (hrc : e.rate_counter ≤ 0x7fff) :
    (clock_decay_step dt e).1 < dt := by
  simpa [clock_decay_step] using
    step_envelope_dt_lt e (decay_dmax e) e.decay
      (exponential_counter_segment.getD e.envelope_counter 0) dt h1 hd hrc

theorem clock_decay_step_rc (dt : Nat) (e : EnvelopeGenerator)
    (hrc : e.rate_counter ≤ 0x7fff) :
    (clock_decay_step dt e).2.rate_counter ≤ 0x7fff := by
  simpa [clock_decay_step] using
    step_envelope_rc_le e (decay_dmax e) e.decay
      (exponential_counter_segment.getD e.envelope_counter 0) dt hrc

theorem clock_decay_step_env_le (dt : Nat) (e : EnvelopeGenerator)
    (he : e.envelope_counter ≤ 255) :
    (clock_decay_step dt e).2.envelope_counter ≤ e.envelope_counter := by
  have hd := step_envelope_denv_le e (decay_dmax e) e.decay
    (exponential_counter_segment.getD e.envelope_counter 0) dt
  have hdm := decay_dmax_le e
  simp only [clock_decay_step, sub8]
  omega

theorem clock_decay_step_floor (dt : Nat) (e : EnvelopeGenerator)
    (he : e.envelope_counter ≤ 255)
    (hs : sustain_level.getD e.sustain 0 ≤ e.envelope_counter) :
    sustain_level.getD e.sustain 0 ≤ (clock_decay_step dt e).2.envelope_counter := by
  have hd := step_envelope_denv_le e (decay_dmax e) e.decay
    (exponential_counter_segment.getD e.envelope_counter 0) dt
  have hdm := decay_dmax_le_sub e he hs
  simp only [clock_decay_step, sub8]
  omega

theorem clock_release_step_fields (dt : Nat) (e : EnvelopeGenerator) :
    (clock_release_step dt e).2.state = e.state ∧
    (clock_release_step dt e).2.gate = e.gate ∧
    (clock_release_step dt e).2.attack = e.attack ∧
    (clock_release_step dt e).2.decay = e.decay ∧
    (clock_release_step dt e).2.sustain = e.sustain ∧
    (clock_release_step dt e).2.release = e.release := by
  simp [clock_release_step]

theorem clock_release_step_lt (dt : Nat) (e : EnvelopeGenerator) (h1 : 1 ≤ dt)
    (hr : e.release ≤ 15) (hrc : e.rate_counter ≤ 0x7fff) :
    (clock_release_step dt e).1 < dt := by
  simpa [clock_release_step] using
    step_envelope_dt_lt e (release_dmax e) e.release
      (exponential_counter_segment.getD e.envelope_counter 0) dt h1 hr hrc

theorem clock_release_step_rc (dt : Nat) (e : EnvelopeGenerator)
    (hrc : e.rate_counter ≤ 0x7fff) :
    (clock_release_step dt e).2.rate_counter ≤ 0x7fff := by
  simpa [clock_release_step] using
    step_envelope_rc_le e (release_dmax e) e.release
      (exponential_counter_segment.getD e.envelope_counter 0) dt hrc

theorem clock_release_step_env_le (dt : Nat) (e : EnvelopeGenerator)
    (he : e.envelope_counter ≤ 255) :
    (clock_release_step dt e).2.envelope_counter ≤ e.envelope_counter := by
  have hd := step_envelope_denv_le e (release_dmax e) e.release
    (exponential_counter_segment.getD e.envelope_counter 0) dt
  have hdm := release_dmax_le e
  simp only [clock_release_step, sub8]
  omega

theorem clock_decay_loop_fuel :
    ∀ f1 f2 dt (e : EnvelopeGenerator), e.decay ≤ 15 → e.rate_counter ≤ 0x7fff →
      dt + 1 ≤ f1 → dt + 1 ≤ f2 →
      clock_decay_loop f1 dt e = clock_decay_loop f2 dt e := by
  intro f1
  induction f1 with
  | zero => intro f2 dt e _ _ h1 _; omega
  | succ f ih =>
    intro f2 dt e hdec hrc h1 h2
    match f2, h2 with
    | g + 1, _ =>
      by_cases h0 : dt = 0
      · simp [clock_decay_loop, h0]
      · simp only [clock_decay_loop, if_neg h0]
        have hlt := clock_decay_step_lt dt e (by omega) hdec hrc
        apply ih
        · rw [(clock_decay_step_fields dt e).2.2.2.1]; exact hdec
        · exact clock_decay_step_rc dt e hrc
        · omega
        · omega

theorem clock_release_loop_fuel :
    ∀ f1 f2 dt (e : EnvelopeGenerator), e.release ≤ 15 → e.rate_counter ≤ 0x7fff →
      dt + 1 ≤ f1 → dt + 1 ≤ f2 →
      clock_release_loop f1 dt e = clock_release_loop f2 dt e := by
  intro f1
  induction f1 with
  | zero => intro f2 dt e _ _ h1 _; omega
  | succ f ih =>
    intro f2 dt e hrel hrc h1 h2
    match f2, h2 with
    | g + 1, _ =>
      by_cases h0 : dt = 0
      · simp [clock_release_loop, h0]
      · simp only [clock_release_loop, if_neg h0]
        have hlt := clock_release_step_lt dt e (by omega) hrel hrc
        apply ih
        · rw [(clock_release_step_fields dt e).2.2.2.2.2]; exact hrel
        · exact clock_release_step_rc dt e hrc
        · omega
        · omega

theorem clock_decay_loop_fields : ∀ fuel dt (e : EnvelopeGenerator),
    (clock_decay_loop fuel dt e).state = e.state ∧
    (clock_decay_loop fuel dt e).gate = e.gate ∧
    (clock_decay_loop fuel dt e).attack = e.attack ∧
    (clock_decay_loop fuel dt e).decay = e.decay ∧
    (clock_decay_loop fuel dt e).sustain = e.sustain ∧
    (clock_decay_loop fuel dt e).release = e.release := by
  intro fuel
  induction fuel with
  | zero => intro dt e; exact ⟨rfl, rfl, rfl, rfl, rfl, rfl⟩
  | succ f ih =>
    intro dt e
    by_cases h0 : dt = 0
    · simp [clock_decay_loop, h0]
    · simp only [clock_decay_loop, if_neg h0]
      have h1 := ih (clock_decay_step dt e).1 (clock_decay_step dt e).2
      have h2 := clock_decay_step_fields dt e
      exact ⟨h1.1.trans h2.1, h1.2.1.trans h2.2.1, h1.2.2.1.trans h2.2.2.1,
        h1.2.2.2.1.trans h2.2.2.2.1, h1.2.2.2.2.1.trans h2.2.2.2.2.1,
        h1.2.2.2.2.2.trans h2.2.2.2.2.2⟩

theorem clock_release_loop_fields : ∀ fuel dt (e : EnvelopeGenerator),
    (clock_release_loop fuel dt e).state = e.state ∧
    (clock_release_loop fuel dt e).gate = e.gate ∧
    (clock_release_loop fuel dt e).attack = e.attack ∧
    (clock_release_loop fuel dt e).decay = e.decay ∧
    (clock_release_loop fuel dt e).sustain = e.sustain ∧
    (clock_release_loop fuel dt e).release = e.release := by
  intro fuel
  induction fuel with
  | zero => intro dt e; exact ⟨rfl, rfl, rfl, rfl, rfl, rfl⟩
  | succ f ih =>
    intro dt e
    by_cases h0 : dt = 0
    · simp [clock_release_loop, h0]
    · simp only [clock_release_loop, if_neg h0]
      have h1 := ih (clock_release_step dt e).1 (clock_release_step dt e).2
      have h2 := clock_release_step_fields dt e
      exact ⟨h1.1.trans h2.1, h1.2.1.trans h2.2.1, h1.2.2.1.trans h2.2.2.1,
        h1.2.2.2.1.trans h2.2.2.2.1, h1.2.2.2.2.1.trans h2.2.2.2.2.1,
        h1.2.2.2.2.2.trans h2.2.2.2.2.2⟩

theorem clock_decay_loop_env_le : ∀ fuel dt (e : EnvelopeGenerator),
    e.envelope_counter ≤ 255 →
    (clock_decay_loop fuel dt e).envelope_counter ≤ e.envelope_counter := by
  intro fuel
  induction fuel with
  | zero => intro dt e he; exact le_refl _
  | succ f ih =>
    intro dt e he
    by_cases h0 : dt = 0
    · simp [clock_decay_loop, h0]
    · simp only [clock_decay_loop, if_neg h0]
      have h1 := clock_decay_step_env_le dt e he
      exact le_trans (ih _ _ (by omega)) h1

theorem clock_decay_loop_floor : ∀ fuel dt (e : EnvelopeGenerator),
    e.envelope_counter ≤ 255 →
    sustain_level.getD e.sustain 0 ≤ e.envelope_counter →
    sustain_level.getD e.sustain 0 ≤ (clock_decay_loop fuel dt e).envelope_counter := by
  intro fuel
  induction fuel with
  | zero => intro dt e he hs; exact hs
  | succ f ih =>
    intro dt e he hs
    by_cases h0 : dt = 0
    · simpa [clock_decay_loop, h0] using hs
    · simp only [clock_decay_loop, if_neg h0]
      have h1 := clock_decay_step_floor dt e he hs
      have h2 := clock_decay_step_env_le dt e he
      have h3 := (clock_decay_step_fields dt e).2.2.2.2.1
      have := ih (clock_decay_step dt e).1 (clock_decay_step dt e).2 (by omega)
        (by rw [h3]; exact h1)
      rwa [h3] at this

theorem clock_release_loop_env_le : ∀ fuel dt (e : EnvelopeGenerator),
    e.envelope_counter ≤ 255 →
    (clock_release_loop fuel dt e).envelope_counter ≤ e.envelope_counter := by
  intro fuel
  induction fuel with
  | zero => intro dt e he; exact le_refl _
  | succ f ih =>
    intro dt e he
    by_cases h0 : dt = 0
    · simp [clock_release_loop, h0]
    · simp only [clock_release_loop, if_neg h0]
      have h1 := clock_release_step_env_le dt e he
      exact le_trans (ih _ _ (by omega)) h1

theorem clock_decay_loop_rc : ∀ fuel dt (e : EnvelopeGenerator),
    e.rate_counter ≤ 0x7fff →
    (clock_decay_loop fuel dt e).rate_counter ≤ 0x7fff := by
  intro fuel
  induction fuel with
  | zero => intro dt e h; exact h
  | succ f ih =>
    intro dt e h
    by_cases h0 : dt = 0
    · simpa [clock_decay_loop, h0] using h
    · simp only [clock_decay_loop, if_neg h0]
      exact ih _ _ (clock_decay_step_rc dt e h)

theorem clock_release_loop_rc : ∀ fuel dt (e : EnvelopeGenerator),
    e.rate_counter ≤ 0x7fff →
    (clock_release_loop fuel dt e).rate_counter ≤ 0x7fff := by
  intro fuel
  induction fuel with
  | zero => intro dt e h; exact h
  | succ f ih =>
    intro dt e h
    by_cases h0 : dt = 0
    · simpa [clock_release_loop, h0] using h
    · simp only [clock_release_loop, if_neg h0]
      exact ih _ _ (clock_release_step_rc dt e h)

theorem sub8_zero {a : Nat} (h : a ≤ 255) : sub8 a 0 = a := by
  simp [sub8]
  omega

theorem sub8_of_le {a b : Nat} (ha : a ≤ 255) (hb : b ≤ a) : sub8 a b = a - b := by
  simp [sub8]
  omega

theorem decay_dmax_congr {a b : EnvelopeGenerator}
    (h1 : a.envelope_counter = b.envelope_counter) (h2 : a.sustain = b.sustain) :
    decay_dmax a = decay_dmax b := by
  unfold decay_dmax
  rw [h1, h2]

theorem release_dmax_congr {a b : EnvelopeGenerator}
    (h1 : a.envelope_counter = b.envelope_counter) :
    release_dmax a = release_dmax b := by
  unfold release_dmax
  rw [h1]

theorem clock_decay_loop_zero_dt : ∀ fuel (e : EnvelopeGenerator),
    clock_decay_loop fuel 0 e = e := by
  intro fuel e
  cases fuel <;> simp [clock_decay_loop]

theorem clock_release_loop_zero_dt : ∀ fuel (e : EnvelopeGenerator),
    clock_release_loop fuel 0 e = e := by
  intro fuel e
  cases fuel <;> simp [clock_release_loop]

theorem clock_decay_loop_succ (f dt : Nat) (e : EnvelopeGenerator) (h : ¬dt = 0) :
    clock_decay_loop (f + 1) dt e =
    clock_decay_loop f (clock_decay_step dt e).1 (clock_decay_step dt e).2 := by
  simp [clock_decay_loop, h]

theorem clock_release_loop_succ (f dt : Nat) (e : EnvelopeGenerator) (h : ¬dt = 0) :
    clock_release_loop (f + 1) dt e =
    clock_release_loop f (clock_release_step dt e).1 (clock_release_step dt e).2 := by
  simp [clock_release_loop, h]

theorem clock_decay_loop_one (e : EnvelopeGenerator) (f3 : Nat) (hf3 : 1 ≤ f3)
    (hdec : e.decay ≤ 15) (hrc : e.rate_counter ≤ 0x7fff) :
    clock_decay_loop f3 1 e = (clock_decay_step 1 e).2 := by
  match f3, hf3 with
  | g + 1, _ =>
    simp only [clock_decay_loop, if_neg one_ne_zero]
    have h1 : (clock_decay_step 1 e).1 = 0 := by
      have := clock_decay_step_lt 1 e (le_refl 1) hdec hrc
      omega
    rw [h1, clock_decay_loop_zero_dt]

theorem clock_release_loop_one (e : EnvelopeGenerator) (f3 : Nat) (hf3 : 1 ≤ f3)
    (hrel : e.release ≤ 15) (hrc : e.rate_counter ≤ 0x7fff) :
    clock_release_loop f3 1 e = (clock_release_step 1 e).2 := by
  match f3, hf3 with
  | g + 1, _ =>
    simp only [clock_release_loop, if_neg one_ne_zero]
    have h1 : (clock_release_step 1 e).1 = 0 := by
      have := clock_release_step_lt 1 e (le_refl 1) hrel hrc
      omega
    rw [h1, clock_release_loop_zero_dt]

/-- Peeling one cycle off the front of the decay/sustain loop: running
`delta_t + 1` cycles is running one cycle and then `delta_t` cycles.
Hypothesis `hs` (the envelope counter sits at or above the sustain level)
excludes the non-compositional corner in which a sustain level raised above
the counter fixes the exponential period across segment boundaries. -/
theorem clock_decay_loop_peel (e : EnvelopeGenerator) (dt f1 f2 f3 : Nat)
    (he : e.envelope_counter ≤ 255) (hrc : e.rate_counter ≤ 0x7fff)
    (hdec : e.decay ≤ 15) (_hsus : e.sustain ≤ 15)
    (hs : sustain_level.getD e.sustain 0 ≤ e.envelope_counter)
    (hf1 : dt + 2 ≤ f1) (hf2 : dt + 1 ≤ f2) (hf3 : 1 ≤ f3) :
    clock_decay_loop f1 (dt + 1) e = clock_decay_loop f2 dt (clock_decay_loop f3 1 e) := by
  rw [clock_decay_loop_one e f3 hf3 hdec hrc]
  rcases Nat.eq_zero_or_pos dt with hdt0 | hdt0
  · subst hdt0
    rw [clock_decay_loop_zero_dt]
    rw [clock_decay_loop_one e f1 (by omega) hdec hrc]
  match f1, hf1, f2, hf2 with
  | g + 1, _, h + 1, _ =>
  have hgd : ¬dt + 1 = 0 := by omega
  have hhd : ¬dt = 0 := by omega
  have hrp := rate_period_bounds e.decay hdec
  have hrs1 := @rate_step_init_pos (rate_counter_period.getD e.decay 0)
    e.rate_counter (by omega) hrc
  rcases Nat.lt_or_ge (rate_step_init (rate_counter_period.getD e.decay 0) e.rate_counter)
    2 with hrs | hrs
  · -- the first cycle hits the rate counter comparison value
    have hrse : rate_step_init (rate_counter_period.getD e.decay 0) e.rate_counter = 1 := by
      omega
    by_cases hec : (e.exponential_counter + 1) % 0x10000 =
        exponential_counter_period.getD
          (exponential_counter_segment.getD e.envelope_counter 0) 0
    · -- exponential counter also matches
      by_cases hD0 : decay_dmax e = 0
      · -- counters run, envelope pinned
        have hpeel := step_envelope_peel_match_exp0 e e.decay
          (exponential_counter_segment.getD e.envelope_counter 0) dt hdec hrse hec
        have hpeel0 := step_envelope_peel_match_exp0 e e.decay
          (exponential_counter_segment.getD e.envelope_counter 0) 0 hdec hrse hec
        have hstep1 : (clock_decay_step 1 e).2 =
            { e with rate_counter := 0, exponential_counter := 0 } := by
          simp only [clock_decay_step, hD0]
          rw [show (1 : Nat) = 0 + 1 from rfl, hpeel0, step_envelope_zero]
          simp [sub8_zero he]
        have hstepL : clock_decay_step (dt + 1) e =
            ((step_envelope { e with rate_counter := 0, exponential_counter := 0 }
                0 e.decay (exponential_counter_segment.getD e.envelope_counter 0) dt).delta_t,
             { e with envelope_counter := e.envelope_counter,
                      rate_counter := (step_envelope
                        { e with rate_counter := 0, exponential_counter := 0 }
                        0 e.decay
                        (exponential_counter_segment.getD e.envelope_counter 0) dt).rate_counter,
                      exponential_counter := (step_envelope
                        { e with rate_counter := 0, exponential_counter := 0 }
                        0 e.decay
                        (exponential_counter_segment.getD e.envelope_counter 0) dt).exponential_counter }) := by
          simp only [clock_decay_step, hD0]
          rw [hpeel]
          rw [step_envelope_denv_zero]
          simp [sub8_zero he]
        have hstepR : clock_decay_step dt
            { e with rate_counter := 0, exponential_counter := 0 } =
            ((step_envelope { e with rate_counter := 0, exponential_counter := 0 }
                0 e.decay (exponential_counter_segment.getD e.envelope_counter 0) dt).delta_t,
             { e with envelope_counter := e.envelope_counter,
                      rate_counter := (step_envelope
                        { e with rate_counter := 0, exponential_counter := 0 }
                        0 e.decay
                        (exponential_counter_segment.getD e.envelope_counter 0) dt).rate_counter,
                      exponential_counter := (step_envelope
                        { e with rate_counter := 0, exponential_counter := 0 }
                        0 e.decay
                        (exponential_counter_segment.getD e.envelope_counter 0) dt).exponential_counter }) := by
          have hdm : decay_dmax { e with rate_counter := 0, exponential_counter := 0 } =
              decay_dmax e := decay_dmax_congr rfl rfl
          simp only [clock_decay_step, hdm, hD0]
          rw [step_envelope_denv_zero]
          simp [sub8_zero he]
        rw [hstep1]
        simp only [clock_decay_loop, if_neg hgd, if_neg hhd, hstepL, hstepR]
        have hdt' := step_envelope_dt_lt
          { e with rate_counter := 0, exponential_counter := 0 } 0 e.decay
          (exponential_counter_segment.getD e.envelope_counter 0) dt hdt0 hdec (by simp)
        apply clock_decay_loop_fuel
        · simpa using hdec
        · simp only []
          exact step_envelope_rc_le _ _ _ _ _ (by simp)
        · omega
        · omega
      · by_cases hD1 : decay_dmax e = 1
        · -- single envelope step, early exit after the first cycle
          have henv1 : 1 ≤ e.envelope_counter := by
            have := decay_dmax_le e
            omega
          have hpeel := step_envelope_peel_match_exp1 e e.decay
            (exponential_counter_segment.getD e.envelope_counter 0) dt hdec hrse hec
          have hpeel0 := step_envelope_peel_match_exp1 e e.decay
            (exponential_counter_segment.getD e.envelope_counter 0) 0 hdec hrse hec
          have hstep1 : (clock_decay_step 1 e).2 =
              { e with envelope_counter := e.envelope_counter - 1,
                       rate_counter := 0, exponential_counter := 0 } := by
            simp only [clock_decay_step, hD1]
            rw [show (1 : Nat) = 0 + 1 from rfl, hpeel0]
            simp [sub8_of_le he henv1]
          have hstepL : clock_decay_step (dt + 1) e =
              (dt, { e with envelope_counter := e.envelope_counter - 1,
                            rate_counter := 0, exponential_counter := 0 }) := by
            simp only [clock_decay_step, hD1]
            rw [hpeel]
            simp [sub8_of_le he henv1]
          rw [hstep1, clock_decay_loop_succ g (dt + 1) e hgd, hstepL]
          apply clock_decay_loop_fuel
          · simpa using hdec
          · exact Nat.zero_le _
          · dsimp only
            omega
          · dsimp only
            omega
        · -- an envelope step is taken and the run continues
          have hD2 : 2 ≤ decay_dmax e := by omega
          have hdle := decay_dmax_le e
          have hl := level_le_self e.envelope_counter (by omega)
          -- the envelope counter sits at least 2 above the clamp level
          have hml : exponential_counter_level.getD
              (exponential_counter_segment.getD e.envelope_counter 0) 0 + 2 ≤
              e.envelope_counter ∧
              sustain_level.getD e.sustain 0 + 2 ≤ e.envelope_counter := by
            simp only [decay_dmax] at hD2
            split_ifs at hD2 <;> omega
          have hpeel := step_envelope_peel_match_exp2 e (decay_dmax e) e.decay
            (exponential_counter_segment.getD e.envelope_counter 0) dt hdec hD2 hrse hec
          have hpeel0 := step_envelope_peel_match_exp2 e (decay_dmax e) e.decay
            (exponential_counter_segment.getD e.envelope_counter 0) 0 hdec hD2 hrse hec
          have hseg : exponential_counter_segment.getD (e.envelope_counter - 1) 0 =
              exponential_counter_segment.getD e.envelope_counter 0 :=
            segment_stable (by omega) (by omega) (by omega)
          have hsub1 : sub8 e.envelope_counter 1 = e.envelope_counter - 1 :=
            sub8_of_le he (by omega)
          have hstep1 : (clock_decay_step 1 e).2 =
              { e with envelope_counter := e.envelope_counter - 1,
                       rate_counter := 0, exponential_counter := 0 } := by
            simp only [clock_decay_step]
            rw [show (1 : Nat) = 0 + 1 from rfl, hpeel0]
            simp only [step_envelope_zero]
            simp [hsub1]
          -- the tail run of the long call
          have hr2denv := step_envelope_denv_le
            { e with rate_counter := 0, exponential_counter := 0 }
            (decay_dmax e - 1) e.decay
            (exponential_counter_segment.getD e.envelope_counter 0) dt
          have hsub2 : sub8 e.envelope_counter
              ((step_envelope { e with rate_counter := 0, exponential_counter := 0 }
                (decay_dmax e - 1) e.decay
                (exponential_counter_segment.getD e.envelope_counter 0) dt).delta_envelope + 1) =
              e.envelope_counter - 1 -
              (step_envelope { e with rate_counter := 0, exponential_counter := 0 }
                (decay_dmax e - 1) e.decay
                (exponential_counter_segment.getD e.envelope_counter 0) dt).delta_envelope := by
            simp only [sub8]
            omega
          have hstepL : clock_decay_step (dt + 1) e =
              ((step_envelope { e with rate_counter := 0, exponential_counter := 0 }
                  (decay_dmax e - 1) e.decay
                  (exponential_counter_segment.getD e.envelope_counter 0) dt).delta_t,
               { e with envelope_counter := e.envelope_counter - 1 -
                          (step_envelope { e with rate_counter := 0, exponential_counter := 0 }
                            (decay_dmax e - 1) e.decay
                            (exponential_counter_segment.getD e.envelope_counter 0) dt).delta_envelope,
                        rate_counter := (step_envelope
                          { e with rate_counter := 0, exponential_counter := 0 }
                          (decay_dmax e - 1) e.decay
                          (exponential_counter_segment.getD e.envelope_counter 0) dt).rate_counter,
                        exponential_counter := (step_envelope
                          { e with rate_counter := 0, exponential_counter := 0 }
                          (decay_dmax e - 1) e.decay
                          (exponential_counter_segment.getD e.envelope_counter 0) dt).exponential_counter }) := by
            simp only [clock_decay_step]
            rw [hpeel]
            simp only [hsub2]
          have hdm' : decay_dmax
              { e with envelope_counter := e.envelope_counter - 1,
                       rate_counter := 0, exponential_counter := 0 } =
              decay_dmax e - 1 := by
            simp only [decay_dmax]
            simp only [hseg]
            simp only [decay_dmax] at hD2
            split_ifs at * <;> omega
          have hcongr := @step_envelope_congr
            { e with envelope_counter := e.envelope_counter - 1,
                     rate_counter := 0, exponential_counter := 0 }
            { e with rate_counter := 0, exponential_counter := 0 }
            (by simp) (by simp) (decay_dmax e - 1) e.decay
            (exponential_counter_segment.getD e.envelope_counter 0) dt
          have hsub3 : sub8 (e.envelope_counter - 1)
              ((step_envelope { e with rate_counter := 0, exponential_counter := 0 }
                (decay_dmax e - 1) e.decay
                (exponential_counter_segment.getD e.envelope_counter 0) dt).delta_envelope) =
              e.envelope_counter - 1 -
              (step_envelope { e with rate_counter := 0, exponential_counter := 0 }
                (decay_dmax e - 1) e.decay
                (exponential_counter_segment.getD e.envelope_counter 0) dt).delta_envelope := by
            simp only [sub8]
            omega
          have hstepR : clock_decay_step dt
              { e with envelope_counter := e.envelope_counter - 1,
                       rate_counter := 0, exponential_counter := 0 } =
              ((step_envelope { e with rate_counter := 0, exponential_counter := 0 }
                  (decay_dmax e - 1) e.decay
                  (exponential_counter_segment.getD e.envelope_counter 0) dt).delta_t,
               { e with envelope_counter := e.envelope_counter - 1 -
                          (step_envelope { e with rate_counter := 0, exponential_counter := 0 }
                            (decay_dmax e - 1) e.decay
                            (exponential_counter_segment.getD e.envelope_counter 0) dt).delta_envelope,
                        rate_counter := (step_envelope
                          { e with rate_counter := 0, exponential_counter := 0 }
                          (decay_dmax e - 1) e.decay
                          (exponential_counter_segment.getD e.envelope_counter 0) dt).rate_counter,
                        exponential_counter := (step_envelope
                          { e with rate_counter := 0, exponential_counter := 0 }
                          (decay_dmax e - 1) e.decay
                          (exponential_counter_segment.getD e.envelope_counter 0) dt).exponential_counter }) := by
            simp only [clock_decay_step, hdm', hseg, hcongr, hsub3]
          have hdt' := step_envelope_dt_lt
            { e with rate_counter := 0, exponential_counter := 0 }
            (decay_dmax e - 1) e.decay
            (exponential_counter_segment.getD e.envelope_counter 0) dt hdt0 hdec
            (by simp)
          rw [hstep1, clock_decay_loop_succ g (dt + 1) e hgd, hstepL,
            clock_decay_loop_succ h dt _ hhd, hstepR]
          apply clock_decay_loop_fuel
          · simpa using hdec
          · dsimp only
            exact step_envelope_rc_le _ _ _ _ _ (by simp)
          · dsimp only
            omega
          · dsimp only
            omega
    · -- rate counter match, exponential counter does not match
      have hpeel := step_envelope_peel_match_noexp e (decay_dmax e) e.decay
        (exponential_counter_segment.getD e.envelope_counter 0) dt hdec hrse hec
      have hpeel0 := step_envelope_peel_match_noexp e (decay_dmax e) e.decay
        (exponential_counter_segment.getD e.envelope_counter 0) 0 hdec hrse hec
      have hstep1 : (clock_decay_step 1 e).2 =
          { e with rate_counter := 0,
                   exponential_counter := (e.exponential_counter + 1) % 0x10000 } := by
        simp only [clock_decay_step]
        rw [show (1 : Nat) = 0 + 1 from rfl, hpeel0, step_envelope_zero]
        simp [sub8_zero he]
      have hdm' : decay_dmax
          { e with rate_counter := 0,
                   exponential_counter := (e.exponential_counter + 1) % 0x10000 } =
          decay_dmax e := decay_dmax_congr rfl rfl
      have hstepL : clock_decay_step (dt + 1) e =
          clock_decay_step dt
            { e with rate_counter := 0,
                     exponential_counter := (e.exponential_counter + 1) % 0x10000 } := by
        simp only [clock_decay_step, hdm']
        rw [hpeel]
      have hlt2 : (clock_decay_step dt
          { e with rate_counter := 0,
                   exponential_counter := (e.exponential_counter + 1) % 0x10000 }).1 < dt :=
        clock_decay_step_lt dt _ hdt0 (show e.decay ≤ 15 from hdec)
          (show (0 : Nat) ≤ 0x7fff from Nat.zero_le _)
      rw [hstep1, clock_decay_loop_succ g (dt + 1) e hgd, hstepL,
        clock_decay_loop_succ h dt _ hhd]
      apply clock_decay_loop_fuel
      · rw [(clock_decay_step_fields _ _).2.2.2.1]
        simpa using hdec
      · apply clock_decay_step_rc
        exact Nat.zero_le _
      · omega
      · omega
  · -- no rate counter match in the first cycle
    have hrp2 : rate_counter_period.getD e.decay 0 ≤ 0x7fff := by omega
    have hpeel := step_envelope_peel_nomatch e (decay_dmax e) e.decay
      (exponential_counter_segment.getD e.envelope_counter 0) dt hdec hrc hrs
    have hpeel0 := step_envelope_peel_nomatch e (decay_dmax e) e.decay
      (exponential_counter_segment.getD e.envelope_counter 0) 0 hdec hrc hrs
    have hstep1 : (clock_decay_step 1 e).2 =
        { e with rate_counter := (e.rate_counter + 1) % 0x8000 } := by
      simp only [clock_decay_step]
      rw [show (1 : Nat) = 0 + 1 from rfl, hpeel0, step_envelope_zero]
      simp [sub8_zero he]
    have hdm' : decay_dmax { e with rate_counter := (e.rate_counter + 1) % 0x8000 } =
        decay_dmax e := decay_dmax_congr rfl rfl
    have hstepL : clock_decay_step (dt + 1) e =
        clock_decay_step dt { e with rate_counter := (e.rate_counter + 1) % 0x8000 } := by
      simp only [clock_decay_step, hdm']
      rw [hpeel]
    have hlt2 : (clock_decay_step dt
        { e with rate_counter := (e.rate_counter + 1) % 0x8000 }).1 < dt :=
      clock_decay_step_lt dt _ hdt0 (show e.decay ≤ 15 from hdec)
        (show (e.rate_counter + 1) % 0x8000 ≤ 0x7fff by omega)
    rw [hstep1, clock_decay_loop_succ g (dt + 1) e hgd, hstepL,
      clock_decay_loop_succ h dt _ hhd]
    apply clock_decay_loop_fuel
    · rw [(clock_decay_step_fields _ _).2.2.2.1]
      simpa using hdec
    · apply clock_decay_step_rc
      show (e.rate_counter + 1) % 0x8000 ≤ 0x7fff
      omega
    · omega
    · omega

/-- Peeling one cycle off the front of the release loop. -/
theorem clock_release_loop_peel (e : EnvelopeGenerator) (dt f1 f2 f3 : Nat)
    (he : e.envelope_counter ≤ 255) (hrc : e.rate_counter ≤ 0x7fff)
    (hdec : e.release ≤ 15)
    (hf1 : dt + 2 ≤ f1) (hf2 : dt + 1 ≤ f2) (hf3 : 1 ≤ f3) :
    clock_release_loop f1 (dt + 1) e = clock_release_loop f2 dt (clock_release_loop f3 1 e) := by
  rw [clock_release_loop_one e f3 hf3 hdec hrc]
  rcases Nat.eq_zero_or_pos dt with hdt0 | hdt0
  · subst hdt0
    rw [clock_release_loop_zero_dt]
    rw [clock_release_loop_one e f1 (by omega) hdec hrc]
  match f1, hf1, f2, hf2 with
  | g + 1, _, h + 1, _ =>
  have hgd : ¬dt + 1 = 0 := by omega
  have hhd : ¬dt = 0 := by omega
  have hrp := rate_period_bounds e.release hdec
  have hrs1 := @rate_step_init_pos (rate_counter_period.getD e.release 0)
    e.rate_counter (by omega) hrc
  rcases Nat.lt_or_ge (rate_step_init (rate_counter_period.getD e.release 0) e.rate_counter)
    2 with hrs | hrs
  · -- the first cycle hits the rate counter comparison value
    have hrse : rate_step_init (rate_counter_period.getD e.release 0) e.rate_counter = 1 := by
      omega
    by_cases hec : (e.exponential_counter + 1) % 0x10000 =
        exponential_counter_period.getD
          (exponential_counter_segment.getD e.envelope_counter 0) 0
    · -- exponential counter also matches
      by_cases hD0 : release_dmax e = 0
      · -- counters run, envelope pinned
        have hpeel := step_envelope_peel_match_exp0 e e.release
          (exponential_counter_segment.getD e.envelope_counter 0) dt hdec hrse hec
        have hpeel0 := step_envelope_peel_match_exp0 e e.release
          (exponential_counter_segment.getD e.envelope_counter 0) 0 hdec hrse hec
        have hstep1 : (clock_release_step 1 e).2 =
            { e with rate_counter := 0, exponential_counter := 0 } := by
          simp only [clock_release_step, hD0]
          rw [show (1 : Nat) = 0 + 1 from rfl, hpeel0, step_envelope_zero]
          simp [sub8_zero he]
        have hstepL : clock_release_step (dt + 1) e =
            ((step_envelope { e with rate_counter := 0, exponential_counter := 0 }
                0 e.release (exponential_counter_segment.getD e.envelope_counter 0) dt).delta_t,
             { e with envelope_counter := e.envelope_counter,
                      rate_counter := (step_envelope
                        { e with rate_counter := 0, exponential_counter := 0 }
                        0 e.release
                        (exponential_counter_segment.getD e.envelope_counter 0) dt).rate_counter,
                      exponential_counter := (step_envelope
                        { e with rate_counter := 0, exponential_counter := 0 }
                        0 e.release
                        (exponential_counter_segment.getD e.envelope_counter 0) dt).exponential_counter }) := by
          simp only [clock_release_step, hD0]
          rw [hpeel]
          rw [step_envelope_denv_zero]
          simp [sub8_zero he]
        have hstepR : clock_release_step dt
            { e with rate_counter := 0, exponential_counter := 0 } =
            ((step_envelope { e with rate_counter := 0, exponential_counter := 0 }
                0 e.release (exponential_counter_segment.getD e.envelope_counter 0) dt).delta_t,
             { e with envelope_counter := e.envelope_counter,
                      rate_counter := (step_envelope
                        { e with rate_counter := 0, exponential_counter := 0 }
                        0 e.release
                        (exponential_counter_segment.getD e.envelope_counter 0) dt).rate_counter,
                      exponential_counter := (step_envelope
                        { e with rate_counter := 0, exponential_counter := 0 }
                        0 e.release
                        (exponential_counter_segment.getD e.envelope_counter 0) dt).exponential_counter }) := by
          have hdm : release_dmax { e with rate_counter := 0, exponential_counter := 0 } =
              release_dmax e := release_dmax_congr rfl
          simp only [clock_release_step, hdm, hD0]
          rw [step_envelope_denv_zero]
          simp [sub8_zero he]
        rw [hstep1]
        simp only [clock_release_loop, if_neg hgd, if_neg hhd, hstepL, hstepR]
        have hdt' := step_envelope_dt_lt
          { e with rate_counter := 0, exponential_counter := 0 } 0 e.release
          (exponential_counter_segment.getD e.envelope_counter 0) dt hdt0 hdec (by simp)
        apply clock_release_loop_fuel
        · simpa using hdec
        · simp only []
          exact step_envelope_rc_le _ _ _ _ _ (by simp)
        · omega
        · omega
      · by_cases hD1 : release_dmax e = 1
        · -- single envelope step, early exit after the first cycle
          have henv1 : 1 ≤ e.envelope_counter := by
            have := release_dmax_le e
            omega
          have hpeel := step_envelope_peel_match_exp1 e e.release
            (exponential_counter_segment.getD e.envelope_counter 0) dt hdec hrse hec
          have hpeel0 := step_envelope_peel_match_exp1 e e.release
            (exponential_counter_segment.getD e.envelope_counter 0) 0 hdec hrse hec
          have hstep1 : (clock_release_step 1 e).2 =
              { e with envelope_counter := e.envelope_counter - 1,
                       rate_counter := 0, exponential_counter := 0 } := by
            simp only [clock_release_step, hD1]
            rw [show (1 : Nat) = 0 + 1 from rfl, hpeel0]
            simp [sub8_of_le he henv1]
          have hstepL : clock_release_step (dt + 1) e =
              (dt, { e with envelope_counter := e.envelope_counter - 1,
                            rate_counter := 0, exponential_counter := 0 }) := by
            simp only [clock_release_step, hD1]
            rw [hpeel]
            simp [sub8_of_le he henv1]
          rw [hstep1, clock_release_loop_succ g (dt + 1) e hgd, hstepL]
          apply clock_release_loop_fuel
          · simpa using hdec
          · exact Nat.zero_le _
          · dsimp only
            omega
          · dsimp only
            omega
        · -- an envelope step is taken and the run continues
          have hD2 : 2 ≤ release_dmax e := by omega
          have hdle := release_dmax_le e
          have hl := level_le_self e.envelope_counter (by omega)
          -- the envelope counter sits at least 2 above the segment level
          have hml : exponential_counter_level.getD
              (exponential_counter_segment.getD e.envelope_counter 0) 0 + 2 ≤
              e.envelope_counter := by
            simp only [release_dmax] at hD2
            omega
          have hpeel := step_envelope_peel_match_exp2 e (release_dmax e) e.release
            (exponential_counter_segment.getD e.envelope_counter 0) dt hdec hD2 hrse hec
          have hpeel0 := step_envelope_peel_match_exp2 e (release_dmax e) e.release
            (exponential_counter_segment.getD e.envelope_counter 0) 0 hdec hD2 hrse hec
          have hseg : exponential_counter_segment.getD (e.envelope_counter - 1) 0 =
              exponential_counter_segment.getD e.envelope_counter 0 :=
            segment_stable (by omega) (by omega) (by omega)
          have hsub1 : sub8 e.envelope_counter 1 = e.envelope_counter - 1 :=
            sub8_of_le he (by omega)
          have hstep1 : (clock_release_step 1 e).2 =
              { e with envelope_counter := e.envelope_counter - 1,
                       rate_counter := 0, exponential_counter := 0 } := by
            simp only [clock_release_step]
            rw [show (1 : Nat) = 0 + 1 from rfl, hpeel0]
            simp only [step_envelope_zero]
            simp [hsub1]
          -- the tail run of the long call
          have hr2denv := step_envelope_denv_le
            { e with rate_counter := 0, exponential_counter := 0 }
            (release_dmax e - 1) e.release
            (exponential_counter_segment.getD e.envelope_counter 0) dt
          have hsub2 : sub8 e.envelope_counter
              ((step_envelope { e with rate_counter := 0, exponential_counter := 0 }
                (release_dmax e - 1) e.release
                (exponential_counter_segment.getD e.envelope_counter 0) dt).delta_envelope + 1) =
              e.envelope_counter - 1 -
              (step_envelope { e with rate_counter := 0, exponential_counter := 0 }
                (release_dmax e - 1) e.release
                (exponential_counter_segment.getD e.envelope_counter 0) dt).delta_envelope := by
            simp only [sub8]
            omega
          have hstepL : clock_release_step (dt + 1) e =
              ((step_envelope { e with rate_counter := 0, exponential_counter := 0 }
                  (release_dmax e - 1) e.release
                  (exponential_counter_segment.getD e.envelope_counter 0) dt).delta_t,
               { e with envelope_counter := e.envelope_counter - 1 -
                          (step_envelope { e with rate_counter := 0, exponential_counter := 0 }
                            (release_dmax e - 1) e.release
                            (exponential_counter_segment.getD e.envelope_counter 0) dt).delta_envelope,
                        rate_counter := (step_envelope
                          { e with rate_counter := 0, exponential_counter := 0 }
                          (release_dmax e - 1) e.release
                          (exponential_counter_segment.getD e.envelope_counter 0) dt).rate_counter,
                        exponential_counter := (step_envelope
                          { e with rate_counter := 0, exponential_counter := 0 }
                          (release_dmax e - 1) e.release
                          (exponential_counter_segment.getD e.envelope_counter 0) dt).exponential_counter }) := by
            simp only [clock_release_step]
            rw [hpeel]
            simp only [hsub2]
          have hdm' : release_dmax
              { e with envelope_counter := e.envelope_counter - 1,
                       rate_counter := 0, exponential_counter := 0 } =
              release_dmax e - 1 := by
            simp only [release_dmax]
            simp only [hseg]
            simp only [release_dmax] at hD2
            omega
          have hcongr := @step_envelope_congr
            { e with envelope_counter := e.envelope_counter - 1,
                     rate_counter := 0, exponential_counter := 0 }
            { e with rate_counter := 0, exponential_counter := 0 }
            (by simp) (by simp) (release_dmax e - 1) e.release
            (exponential_counter_segment.getD e.envelope_counter 0) dt
          have hsub3 : sub8 (e.envelope_counter - 1)
              ((step_envelope { e with rate_counter := 0, exponential_counter := 0 }
                (release_dmax e - 1) e.release
                (exponential_counter_segment.getD e.envelope_counter 0) dt).delta_envelope) =
              e.envelope_counter - 1 -
              (step_envelope { e with rate_counter := 0, exponential_counter := 0 }
                (release_dmax e - 1) e.release
                (exponential_counter_segment.getD e.envelope_counter 0) dt).delta_envelope := by
            simp only [sub8]
            omega
          have hstepR : clock_release_step dt
              { e with envelope_counter := e.envelope_counter - 1,
                       rate_counter := 0, exponential_counter := 0 } =
              ((step_envelope { e with rate_counter := 0, exponential_counter := 0 }
                  (release_dmax e - 1) e.release
                  (exponential_counter_segment.getD e.envelope_counter 0) dt).delta_t,
               { e with envelope_counter := e.envelope_counter - 1 -
                          (step_envelope { e with rate_counter := 0, exponential_counter := 0 }
                            (release_dmax e - 1) e.release
                            (exponential_counter_segment.getD e.envelope_counter 0) dt).delta_envelope,
                        rate_counter := (step_envelope
                          { e with rate_counter := 0, exponential_counter := 0 }
                          (release_dmax e - 1) e.release
                          (exponential_counter_segment.getD e.envelope_counter 0) dt).rate_counter,
                        exponential_counter := (step_envelope
                          { e with rate_counter := 0, exponential_counter := 0 }
                          (release_dmax e - 1) e.release
                          (exponential_counter_segment.getD e.envelope_counter 0) dt).exponential_counter }) := by
            simp only [clock_release_step, hdm', hseg, hcongr, hsub3]
          have hdt' := step_envelope_dt_lt
            { e with rate_counter := 0, exponential_counter := 0 }
            (release_dmax e - 1) e.release
            (exponential_counter_segment.getD e.envelope_counter 0) dt hdt0 hdec
            (by simp)
          rw [hstep1, clock_release_loop_succ g (dt + 1) e hgd, hstepL,
            clock_release_loop_succ h dt _ hhd, hstepR]
          apply clock_release_loop_fuel
          · simpa using hdec
          · dsimp only
            exact step_envelope_rc_le _ _ _ _ _ (by simp)
          · dsimp only
            omega
          · dsimp only
            omega
    · -- rate counter match, exponential counter does not match
      have hpeel := step_envelope_peel_match_noexp e (release_dmax e) e.release
        (exponential_counter_segment.getD e.envelope_counter 0) dt hdec hrse hec
      have hpeel0 := step_envelope_peel_match_noexp e (release_dmax e) e.release
        (exponential_counter_segment.getD e.envelope_counter 0) 0 hdec hrse hec
      have hstep1 : (clock_release_step 1 e).2 =
          { e with rate_counter := 0,
                   exponential_counter := (e.exponential_counter + 1) % 0x10000 } := by
        simp only [clock_release_step]
        rw [show (1 : Nat) = 0 + 1 from rfl, hpeel0, step_envelope_zero]
        simp [sub8_zero he]
      have hdm' : release_dmax
          { e with rate_counter := 0,
                   exponential_counter := (e.exponential_counter + 1) % 0x10000 } =
          release_dmax e := release_dmax_congr rfl
      have hstepL : clock_release_step (dt + 1) e =
          clock_release_step dt
            { e with rate_counter := 0,
                     exponential_counter := (e.exponential_counter + 1) % 0x10000 } := by
        simp only [clock_release_step, hdm']
        rw [hpeel]
      have hlt2 : (clock_release_step dt
          { e with rate_counter := 0,
                   exponential_counter := (e.exponential_counter + 1) % 0x10000 }).1 < dt :=
        clock_release_step_lt dt _ hdt0 (show e.release ≤ 15 from hdec)
          (show (0 : Nat) ≤ 0x7fff from Nat.zero_le _)
      rw [hstep1, clock_release_loop_succ g (dt + 1) e hgd, hstepL,
        clock_release_loop_succ h dt _ hhd]
      apply clock_release_loop_fuel
      · rw [(clock_release_step_fields _ _).2.2.2.2.2]
        simpa using hdec
      · apply clock_release_step_rc
        exact Nat.zero_le _
      · omega
      · omega
  · -- no rate counter match in the first cycle
    have hrp2 : rate_counter_period.getD e.release 0 ≤ 0x7fff := by omega
    have hpeel := step_envelope_peel_nomatch e (release_dmax e) e.release
      (exponential_counter_segment.getD e.envelope_counter 0) dt hdec hrc hrs
    have hpeel0 := step_envelope_peel_nomatch e (release_dmax e) e.release
      (exponential_counter_segment.getD e.envelope_counter 0) 0 hdec hrc hrs
    have hstep1 : (clock_release_step 1 e).2 =
        { e with rate_counter := (e.rate_counter + 1) % 0x8000 } := by
      simp only [clock_release_step]
      rw [show (1 : Nat) = 0 + 1 from rfl, hpeel0, step_envelope_zero]
      simp [sub8_zero he]
    have hdm' : release_dmax { e with rate_counter := (e.rate_counter + 1) % 0x8000 } =
        release_dmax e := release_dmax_congr rfl
    have hstepL : clock_release_step (dt + 1) e =
        clock_release_step dt { e with rate_counter := (e.rate_counter + 1) % 0x8000 } := by
      simp only [clock_release_step, hdm']
      rw [hpeel]
    have hlt2 : (clock_release_step dt
        { e with rate_counter := (e.rate_counter + 1) % 0x8000 }).1 < dt :=
      clock_release_step_lt dt _ hdt0 (show e.release ≤ 15 from hdec)
        (show (e.rate_counter + 1) % 0x8000 ≤ 0x7fff by omega)
    rw [hstep1, clock_release_loop_succ g (dt + 1) e hgd, hstepL,
      clock_release_loop_succ h dt _ hhd]
    apply clock_release_loop_fuel
    · rw [(clock_release_step_fields _ _).2.2.2.2.2]
      simpa using hdec
    · apply clock_release_step_rc
      show (e.rate_counter + 1) % 0x8000 ≤ 0x7fff
      omega
    · omega
    · omega


/-- Peeling one cycle off the front of `EnvelopeGenerator::clock`. -/
theorem clock_peel (e : EnvelopeGenerator) (dt : Nat)
    (hwf : WellFormed e) (hg : GoodState e) :
    clock (dt + 1) e = clock dt (clock 1 e) := by
  obtain ⟨he, hrc, hatk, hdec, hsus, hrel⟩ := hwf
  rcases hst : e.state with hA | hDS | hR
  · -- ATTACK
    have hne255 : e.envelope_counter ≠ 255 := hg.1 hst
    have henvlt : e.envelope_counter < 255 := by omega
    have hrp := rate_period_bounds e.attack hatk
    have hrs1 := @rate_step_init_pos (rate_counter_period.getD e.attack 0)
      e.rate_counter (by omega) hrc
    rcases Nat.lt_or_ge
      (rate_step_init (rate_counter_period.getD e.attack 0) e.rate_counter) 2 with
      hrs | hrs
    · have hrse : rate_step_init (rate_counter_period.getD e.attack 0) e.rate_counter
          = 1 := by omega
      by_cases hec : (e.exponential_counter + 1) % 0x10000 =
          exponential_counter_period.getD 0 0
      · -- rate and exponential counter match in the first cycle
        by_cases hD1 : (0xff : Nat) - e.envelope_counter = 1
        · -- the attack completes on the first cycle
          have henv254 : e.envelope_counter = 254 := by omega
          have hpeelL : step_envelope e (0xff - e.envelope_counter) e.attack 0 (dt + 1) =
              ⟨1, dt, 0, 0⟩ := by
            rw [hD1]
            exact step_envelope_peel_match_exp1 e e.attack 0 dt hatk hrse hec
          have hone : step_envelope e (0xff - e.envelope_counter) e.attack 0 1 =
              ⟨1, 0, 0, 0⟩ := by
            rw [hD1]
            exact step_envelope_peel_match_exp1 e e.attack 0 0 hatk hrse hec
          have h255 : ¬((e.envelope_counter + 1) % 256 ≠ 255) := by omega
          have hDSA : ¬(EnvPhase.DECAY_SUSTAIN = EnvPhase.ATTACK) := by decide
          have hrec : ({ e with envelope_counter := (e.envelope_counter + 1) % 256,
                                rate_counter := 0, exponential_counter := 0,
                                state := EnvPhase.DECAY_SUSTAIN } : EnvelopeGenerator) =
              { e with envelope_counter := 255, rate_counter := 0,
                       exponential_counter := 0, state := EnvPhase.DECAY_SUSTAIN } := by
            have h : (e.envelope_counter + 1) % 256 = 255 := by omega
            rw [h]
          have hclock1 : clock 1 e =
              { e with envelope_counter := 255, rate_counter := 0,
                       exponential_counter := 0,
                       state := EnvPhase.DECAY_SUSTAIN } := by
            unfold clock
            dsimp only
            rw [if_pos hst, hone]
            dsimp only
            rw [if_neg h255, clock_decay_loop_zero_dt, hrec]
          rw [hclock1]
          unfold clock
          dsimp only
          rw [if_pos hst, hpeelL]
          dsimp only
          rw [if_neg h255, if_neg hDSA,
            if_pos (show EnvPhase.DECAY_SUSTAIN = EnvPhase.DECAY_SUSTAIN from rfl), hrec]
        · -- an envelope step is taken and the attack continues
          have hD2 : 2 ≤ 0xff - e.envelope_counter := by omega
          have hpeel := step_envelope_peel_match_exp2 e (0xff - e.envelope_counter)
            e.attack 0 dt hatk hD2 hrse hec
          have hpeel0 := step_envelope_peel_match_exp2 e (0xff - e.envelope_counter)
            e.attack 0 0 hatk hD2 hrse hec
          have hone : step_envelope e (0xff - e.envelope_counter) e.attack 0 1 =
              ⟨1, 0, 0, 0⟩ := by
            rw [show (1 : Nat) = 0 + 1 from rfl, hpeel0, step_envelope_zero]
          have hclock1 : clock 1 e =
              { e with envelope_counter := e.envelope_counter + 1,
                       rate_counter := 0, exponential_counter := 0 } := by
            unfold clock
            dsimp only
            rw [if_pos hst, hone]
            dsimp only
            rw [if_pos (show (e.envelope_counter + 1) % 256 ≠ 255 by omega)]
            have h : (e.envelope_counter + 1) % 256 = e.envelope_counter + 1 := by omega
            rw [h]
          rw [hclock1]
          unfold clock
          dsimp only
          rw [if_pos hst, if_pos hst, hpeel]
          dsimp only
          rw [show (0xff : Nat) - (e.envelope_counter + 1) =
              0xff - e.envelope_counter - 1 by omega]
          have hcongr := @step_envelope_congr
            { e with envelope_counter := e.envelope_counter + 1,
                     rate_counter := 0, exponential_counter := 0 }
            { e with rate_counter := 0, exponential_counter := 0 }
            rfl rfl (0xff - e.envelope_counter - 1) e.attack 0 dt
          rw [hcongr]
          have harith : ∀ d : Nat,
              e.envelope_counter + (d + 1) = e.envelope_counter + 1 + d := by
            intro d
            omega
          rw [harith]
      · -- rate counter match, no exponential counter match
        have hpeel := step_envelope_peel_match_noexp e (0xff - e.envelope_counter)
          e.attack 0 dt hatk hrse hec
        have hpeel0 := step_envelope_peel_match_noexp e (0xff - e.envelope_counter)
          e.attack 0 0 hatk hrse hec
        have hone : step_envelope e (0xff - e.envelope_counter) e.attack 0 1 =
            ⟨0, 0, 0, (e.exponential_counter + 1) % 0x10000⟩ := by
          rw [show (1 : Nat) = 0 + 1 from rfl, hpeel0, step_envelope_zero]
        have hclock1 : clock 1 e =
            { e with rate_counter := 0,
                     exponential_counter := (e.exponential_counter + 1) % 0x10000 } := by
          unfold clock
          dsimp only
          rw [if_pos hst, hone]
          dsimp only
          rw [if_pos (show (e.envelope_counter + 0) % 256 ≠ 255 by omega)]
          have h : (e.envelope_counter + 0) % 256 = e.envelope_counter := by omega
          rw [h]
        rw [hclock1]
        unfold clock
        dsimp only
        rw [if_pos hst, if_pos hst, hpeel]
    · -- no rate counter match in the first cycle
      have hpeel := step_envelope_peel_nomatch e (0xff - e.envelope_counter)
        e.attack 0 dt hatk hrc hrs
      have hpeel0 := step_envelope_peel_nomatch e (0xff - e.envelope_counter)
        e.attack 0 0 hatk hrc hrs
      have hone : step_envelope e (0xff - e.envelope_counter) e.attack 0 1 =
          ⟨0, 0, (e.rate_counter + 1) % 0x8000, e.exponential_counter⟩ := by
        rw [show (1 : Nat) = 0 + 1 from rfl, hpeel0, step_envelope_zero]
      have hclock1 : clock 1 e =
          { e with rate_counter := (e.rate_counter + 1) % 0x8000 } := by
        unfold clock
        dsimp only
        rw [if_pos hst, hone]
        dsimp only
        rw [if_pos (show (e.envelope_counter + 0) % 256 ≠ 255 by omega)]
        have h : (e.envelope_counter + 0) % 256 = e.envelope_counter := by omega
        rw [h]
      rw [hclock1]
      unfold clock
      dsimp only
      rw [if_pos hst, if_pos hst, hpeel]
  · -- DECAY_SUSTAIN
    have hsl := hg.2 hst
    have hnA : ¬e.state = EnvPhase.ATTACK := by rw [hst]; decide
    have h1e : clock 1 e = clock_decay_loop 2 1 e := by
      unfold clock
      rw [if_neg hnA, if_pos hst]
    have h2 : (clock_decay_loop 2 1 e).state = EnvPhase.DECAY_SUSTAIN :=
      (clock_decay_loop_fields 2 1 e).1.trans hst
    have hnA2 : ¬(clock_decay_loop 2 1 e).state = EnvPhase.ATTACK := by
      rw [h2]; decide
    rw [h1e]
    unfold clock
    rw [if_neg hnA, if_pos hst, if_neg hnA2, if_pos h2]
    exact clock_decay_loop_peel e dt (dt + 1 + 1) (dt + 1) 2 he hrc hdec hsus hsl
      (by omega) (by omega) (by omega)
  · -- RELEASE
    have hnA : ¬e.state = EnvPhase.ATTACK := by rw [hst]; decide
    have hnD : ¬e.state = EnvPhase.DECAY_SUSTAIN := by rw [hst]; decide
    have h1e : clock 1 e = clock_release_loop 2 1 e := by
      unfold clock
      rw [if_neg hnA, if_neg hnD]
    have h2s : (clock_release_loop 2 1 e).state = EnvPhase.RELEASE :=
      (clock_release_loop_fields 2 1 e).1.trans hst
    have hnA2 : ¬(clock_release_loop 2 1 e).state = EnvPhase.ATTACK := by
      rw [h2s]; decide
    have hnD2 : ¬(clock_release_loop 2 1 e).state = EnvPhase.DECAY_SUSTAIN := by
      rw [h2s]; decide
    rw [h1e]
    unfold clock
    rw [if_neg hnA, if_neg hnD, if_neg hnA2, if_neg hnD2]
    exact clock_release_loop_peel e dt (dt + 1 + 1) (dt + 1) 2 he hrc hrel
      (by omega) (by omega) (by omega)

/-- `clock` never touches the register fields or the gate. -/
theorem clock_fields (dt : Nat) (e : EnvelopeGenerator) :
    (clock dt e).gate = e.gate ∧ (clock dt e).attack = e.attack ∧
    (clock dt e).decay = e.decay ∧ (clock dt e).sustain = e.sustain ∧
    (clock dt e).release = e.release := by
  unfold clock
  dsimp only
  split_ifs with h1 h2 h3
  · exact ⟨rfl, rfl, rfl, rfl, rfl⟩
  · exact ⟨(clock_decay_loop_fields _ _ _).2.1, (clock_decay_loop_fields _ _ _).2.2.1,
      (clock_decay_loop_fields _ _ _).2.2.2.1, (clock_decay_loop_fields _ _ _).2.2.2.2.1,
      (clock_decay_loop_fields _ _ _).2.2.2.2.2⟩
  · have h := clock_decay_loop_fields (dt + 1) dt e
    exact ⟨h.2.1, h.2.2.1, h.2.2.2.1, h.2.2.2.2.1, h.2.2.2.2.2⟩
  · have h := clock_release_loop_fields (dt + 1) dt e
    exact ⟨h.2.1, h.2.2.1, h.2.2.2.1, h.2.2.2.2.1, h.2.2.2.2.2⟩

/-- The envelope counter stays 8-bit under `clock`. -/
theorem clock_env_le (dt : Nat) (e : EnvelopeGenerator)
    (he : e.envelope_counter ≤ 255) :
    (clock dt e).envelope_counter ≤ 255 := by
  unfold clock
  dsimp only
  split_ifs with h1 h2 h3
  · dsimp only
    omega
  · refine le_trans (clock_decay_loop_env_le _ _ _ ?_) ?_ <;> (dsimp only; omega)
  · exact le_trans (clock_decay_loop_env_le _ _ _ he) he
  · exact le_trans (clock_release_loop_env_le _ _ _ he) he

/-- The rate counter stays 15-bit under `clock`. -/
theorem clock_rc_le (dt : Nat) (e : EnvelopeGenerator)
    (hrc : e.rate_counter ≤ 0x7fff) :
    (clock dt e).rate_counter ≤ 0x7fff := by
  unfold clock
  dsimp only
  split_ifs with h1 h2 h3
  · dsimp only
    exact step_envelope_rc_le e _ _ _ _ hrc
  · refine clock_decay_loop_rc _ _ _ ?_
    dsimp only
    exact step_envelope_rc_le e _ _ _ _ hrc
  · exact clock_decay_loop_rc _ _ _ hrc
  · exact clock_release_loop_rc _ _ _ hrc

/-- Clocking zero cycles is the identity on good states. -/
theorem clock_zero (e : EnvelopeGenerator) (he : e.envelope_counter ≤ 255)
    (hg : GoodState e) : clock 0 e = e := by
  rcases hst : e.state with hA | hDS | hR
  · have hne255 := hg.1 hst
    unfold clock
    dsimp only
    rw [if_pos hst, step_envelope_zero]
    dsimp only
    rw [if_pos (show (e.envelope_counter + 0) % 256 ≠ 255 by omega)]
    have h : (e.envelope_counter + 0) % 256 = e.envelope_counter := by omega
    rw [h]
  · have hnA : ¬e.state = EnvPhase.ATTACK := by rw [hst]; decide
    unfold clock
    rw [if_neg hnA, if_pos hst, clock_decay_loop_zero_dt]
  · have hnA : ¬e.state = EnvPhase.ATTACK := by rw [hst]; decide
    have hnD : ¬e.state = EnvPhase.DECAY_SUSTAIN := by rw [hst]; decide
    unfold clock
    rw [if_neg hnA, if_neg hnD, clock_release_loop_zero_dt]

/-- `clock` preserves the representation invariants. -/
theorem clock_WellFormed (dt : Nat) (e : EnvelopeGenerator)
    (hwf : WellFormed e) : WellFormed (clock dt e) := by
  obtain ⟨he, hrc, ha, hd, hs, hr⟩ := hwf
  have hf := clock_fields dt e
  exact ⟨clock_env_le dt e he, clock_rc_le dt e hrc,
    by rw [hf.2.1]; exact ha, by rw [hf.2.2.1]; exact hd,
    by rw [hf.2.2.2.1]; exact hs, by rw [hf.2.2.2.2]; exact hr⟩

/-- `clock` preserves the compositionality invariant. -/
theorem clock_GoodState (dt : Nat) (e : EnvelopeGenerator)
    (hwf : WellFormed e) (hg : GoodState e) : GoodState (clock dt e) := by
  obtain ⟨he, hrc, hatk, hdec, hsus, hrel⟩ := hwf
  rcases hst : e.state with hA | hDS | hR
  · -- ATTACK
    have hne255 := hg.1 hst
    have hsle := sustain_level_le e.sustain hsus
    unfold clock
    dsimp only
    rw [if_pos hst]
    split_ifs with h2
    · refine ⟨fun hatt => ?_, fun hds => ?_⟩
      · dsimp only
        exact h2
      · dsimp only at hds
        rw [hst] at hds
        exact absurd hds (by decide)
    · refine ⟨fun hatt => ?_, fun hds => ?_⟩
      · rw [(clock_decay_loop_fields _ _ _).1] at hatt
        dsimp only at hatt
        exact absurd hatt (by decide)
      · rw [(clock_decay_loop_fields _ _ _).2.2.2.2.1]
        refine clock_decay_loop_floor _ _ _ ?_ ?_ <;> (dsimp only; omega)
  · -- DECAY_SUSTAIN
    have hsl := hg.2 hst
    have hnA : ¬e.state = EnvPhase.ATTACK := by rw [hst]; decide
    unfold clock
    rw [if_neg hnA, if_pos hst]
    refine ⟨fun hatt => ?_, fun hds => ?_⟩
    · rw [(clock_decay_loop_fields _ _ _).1, hst] at hatt
      exact absurd hatt (by decide)
    · rw [(clock_decay_loop_fields _ _ _).2.2.2.2.1]
      exact clock_decay_loop_floor _ _ _ he hsl
  · -- RELEASE
    have hnA : ¬e.state = EnvPhase.ATTACK := by rw [hst]; decide
    have hnD : ¬e.state = EnvPhase.DECAY_SUSTAIN := by rw [hst]; decide
    unfold clock
    rw [if_neg hnA, if_neg hnD]
    refine ⟨fun hatt => ?_, fun hds => ?_⟩
    · rw [(clock_release_loop_fields _ _ _).1, hst] at hatt
      exact absurd hatt (by decide)
    · rw [(clock_release_loop_fields _ _ _).1, hst] at hds
      exact absurd hds (by decide)

/-- On good states, clocking the envelope generator is additive in the
cycle count. -/
theorem clock_add (a b : Nat) (e : EnvelopeGenerator)
    (hwf : WellFormed e) (hg : GoodState e) :
    clock b (clock a e) = clock (a + b) e := by
  induction a generalizing e with
  | zero => rw [clock_zero e hwf.1 hg, Nat.zero_add]
  | succ n ih =>
    rw [clock_peel e n hwf hg,
      ih (clock 1 e) (clock_WellFormed 1 e hwf) (clock_GoodState 1 e hwf hg),
      ← clock_peel e (n + b) hwf hg, show n + 1 + b = n + b + 1 by omega]

/-- The reset state satisfies the compositionality invariant. -/
theorem reset_goodState : GoodState reset := by
  unfold GoodState
  exact ⟨fun h => by decide, fun h => by decide⟩

/-- In the release state the envelope counter never increases. -/
theorem clock_release_env_le (dt : Nat) (e : EnvelopeGenerator)
    (he : e.envelope_counter ≤ 255) (hst : e.state = EnvPhase.RELEASE) :
    (clock dt e).envelope_counter ≤ e.envelope_counter := by
  have hnA : ¬e.state = EnvPhase.ATTACK := by rw [hst]; decide
  have hnD : ¬e.state = EnvPhase.DECAY_SUSTAIN := by rw [hst]; decide
  unfold clock
  rw [if_neg hnA, if_neg hnD]
  exact clock_release_loop_env_le _ _ _ he

/-- While the generator stays in the attack state the envelope counter
never decreases. -/
theorem clock_attack_mono (dt : Nat) (e : EnvelopeGenerator)
    (he : e.envelope_counter ≤ 255) (hst : e.state = EnvPhase.ATTACK)
    (hafter : (clock dt e).state = EnvPhase.ATTACK) :
    e.envelope_counter ≤ (clock dt e).envelope_counter := by
  unfold clock at hafter ⊢
  dsimp only at hafter ⊢
  rw [if_pos hst] at hafter ⊢
  split_ifs at hafter ⊢ with h2
  · dsimp only
    have hd := step_envelope_denv_le e (0xff - e.envelope_counter) e.attack 0 dt
    omega
  · rw [(clock_decay_loop_fields _ _ _).1] at hafter
    dsimp only at hafter
    exact absurd hafter (by decide)

/-- Every reachable envelope generator state is well-formed. -/
theorem Reachable.wellFormed : ∀ {e : EnvelopeGenerator}, Reachable e → WellFormed e := by
  intro e h
  induction h with
  | reset =>
    exact ⟨by decide, by decide, by decide, by decide, by decide, by decide⟩
  | writeCONTROL_REG c hr ih =>
    obtain ⟨h1, h2, h3, h4, h5, h6⟩ := ih
    unfold ReSID.EnvelopeGenerator.writeCONTROL_REG
    dsimp only
    split_ifs <;> exact ⟨h1, h2, h3, h4, h5, h6⟩
  | writeATTACK_DECAY v hr ih =>
    obtain ⟨h1, h2, h3, h4, h5, h6⟩ := ih
    exact ⟨h1, h2, by dsimp only [ReSID.EnvelopeGenerator.writeATTACK_DECAY]; omega,
      by dsimp only [ReSID.EnvelopeGenerator.writeATTACK_DECAY]; omega, h5, h6⟩
  | writeSUSTAIN_RELEASE v hr ih =>
    obtain ⟨h1, h2, h3, h4, h5, h6⟩ := ih
    exact ⟨h1, h2, h3, h4, by dsimp only [ReSID.EnvelopeGenerator.writeSUSTAIN_RELEASE]; omega,
      by dsimp only [ReSID.EnvelopeGenerator.writeSUSTAIN_RELEASE]; omega⟩
  | clock dt hr ih =>
    exact clock_WellFormed dt _ ih

/-- A run shorter than the current `rate_step` leaves `delta_envelope`
unchanged. -/
theorem step_envelope_loop_denv_of_lt (rp ep dmax : Nat) :
    ∀ fuel dt rate_step rc ec denv, dt < rate_step →
    (step_envelope_loop rp ep dmax fuel dt rate_step rc ec denv).delta_envelope = denv := by
  intro fuel dt rs rc ec denv h
  cases fuel with
  | zero => rfl
  | succ g =>
    by_cases h0 : dt = 0
    · simp [step_envelope_loop, h0]
    · simp only [step_envelope_loop]
      rw [if_neg h0, if_pos h]

/-- Fewer cycles than the initial rate step: no envelope step is taken. -/
theorem step_envelope_denv_of_lt (e : EnvelopeGenerator) (dmax i g dt : Nat)
    (h : dt < rate_step_init (rate_counter_period.getD i 0) e.rate_counter) :
    (step_envelope e dmax i g dt).delta_envelope = 0 := by
  unfold step_envelope
  dsimp only
  exact step_envelope_loop_denv_of_lt _ _ _ _ _ _ _ _ _ h

/-- From a fresh attack (counter and rate counter zero), the envelope
counter stays 0 for any run shorter than the programmed rate period. -/
theorem clock_attack_first_period (e : EnvelopeGenerator) (t : Nat)
    (hst : e.state = EnvPhase.ATTACK) (henv : e.envelope_counter = 0)
    (hrc : e.rate_counter = 0) (hatk : e.attack ≤ 15)
    (ht : t < rate_counter_period.getD e.attack 0) :
    (clock t e).envelope_counter = 0 := by
  have hrp := (rate_period_bounds e.attack hatk).1
  have hd : (step_envelope e (0xff - e.envelope_counter) e.attack 0 t).delta_envelope
      = 0 := by
    apply step_envelope_denv_of_lt
    rw [hrc, rate_step_init_zero _ (by omega)]
    exact ht
  unfold clock
  dsimp only
  rw [if_pos hst, hd, henv]
  rw [if_pos (show (0 + 0) % 256 ≠ 255 by decide)]

end EnvelopeGenerator

namespace WaveformGenerator

theorem clock_test (dt : Nat) (w : WaveformGenerator) : (clock dt w).test = w.test := by
  unfold clock
  split_ifs <;> rfl

theorem clock_freq (dt : Nat) (w : WaveformGenerator) : (clock dt w).freq = w.freq := by
  unfold clock
  split_ifs <;> rfl

/-- Outside test mode the 24-bit accumulator advances by `delta_t * freq`. -/
theorem clock_accumulator (dt : Nat) (w : WaveformGenerator) (ht : w.test = false) :
    (clock dt w).accumulator = (w.accumulator + dt * w.freq) % 0x1000000 := by
  unfold clock
  rw [if_neg (by simp [ht])]
  dsimp only
  generalize dt * w.freq = d
  omega

/-- The accumulator update is additive in the cycle count. -/
theorem clock_acc_add (a b : Nat) (w : WaveformGenerator) (ht : w.test = false) :
    (clock b (clock a w)).accumulator = (clock (a + b) w).accumulator := by
  have ht2 : (clock a w).test = false := (clock_test a w).trans ht
  rw [clock_accumulator b _ ht2, clock_accumulator a w ht, clock_accumulator (a + b) w ht,
    clock_freq, Nat.add_mul, ← Nat.add_assoc, Nat.mod_add_mod]

/-- One LFSR shift of a nonzero 23-bit value is nonzero and 23-bit.  The
only nonzero value whose left shift is zero mod `2^23` is `0x400000`, and
there the feedback bit is 1. -/
theorem lfsr_shift_nonzero (sr : Nat) (h0 : sr ≠ 0) (hlt : sr < 0x800000) :
    lfsr_shift sr ≠ 0 ∧ lfsr_shift sr < 0x800000 := by
  unfold lfsr_shift
  dsimp only
  by_cases hz : sr * 2 % 0x800000 = 0
  · have hsr : sr = 0x400000 := by omega
    subst hsr
    exact ⟨by decide, by decide⟩
  · constructor <;> omega

theorem lfsr_iter_nonzero : ∀ (n sr : Nat), sr ≠ 0 → sr < 0x800000 →
    lfsr_iter n sr ≠ 0 ∧ lfsr_iter n sr < 0x800000
  | 0, _, h0, hlt => ⟨h0, hlt⟩
  | n + 1, sr, h0, hlt =>
    lfsr_iter_nonzero n _ (lfsr_shift_nonzero sr h0 hlt).1 (lfsr_shift_nonzero sr h0 hlt).2

/-- `clock` outside test mode keeps a nonzero 23-bit shift register nonzero. -/
theorem clock_shift_register_nonzero (dt : Nat) (w : WaveformGenerator)
    (ht : w.test = false) (h0 : w.shift_register ≠ 0) (hlt : w.shift_register < 0x800000) :
    (clock dt w).shift_register ≠ 0 ∧ (clock dt w).shift_register < 0x800000 := by
  unfold clock
  rw [if_neg (by simp [ht])]
  dsimp only
  exact lfsr_iter_nonzero _ _ h0 hlt

end WaveformGenerator

/-! ## The claims -/

/-- C1 (counterexample): envelope clocking is not additive on every reachable
state.  After a full attack the gate is dropped and raised again, leaving the
generator in ATTACK with the counter at `0xff`; from there `clock(1); clock(9)`
decays the counter to 254 while a single `clock(10)` leaves it at 255, because
the bulk attack pass consumes the whole `delta_t` at `delta_envelope_max = 0`
before the decay branch is entered. -/
theorem C1_counterexample :
    EnvelopeGenerator.Reachable EnvelopeGenerator.attack_full ∧
    (EnvelopeGenerator.clock 9 (EnvelopeGenerator.clock 1
        EnvelopeGenerator.attack_full)).envelope_counter ≠
      (EnvelopeGenerator.clock 10 EnvelopeGenerator.attack_full).envelope_counter := by
  constructor
  · unfold EnvelopeGenerator.attack_full
    exact .writeCONTROL_REG 1 (.writeCONTROL_REG 0 (.clock 2295
      (.writeCONTROL_REG 1 (.writeATTACK_DECAY 0 .reset))))
  · decide

/-- C1 (amended): `clock(a); clock(b)` equals `clock(a+b)` for the envelope
generator on well-formed states outside the two non-compositional corners
(ATTACK with counter `0xff`, and decay/sustain with the sustain level above
the counter), and for the waveform accumulator whenever the test bit is
clear. -/
theorem C1_additivity (a b : Nat) (e : EnvelopeGenerator) (w : WaveformGenerator)
    (hwf : EnvelopeGenerator.WellFormed e) (hg : EnvelopeGenerator.GoodState e)
    (ht : w.test = false) :
    EnvelopeGenerator.clock b (EnvelopeGenerator.clock a e) =
      EnvelopeGenerator.clock (a + b) e ∧
    (WaveformGenerator.clock b (WaveformGenerator.clock a w)).accumulator =
      (WaveformGenerator.clock (a + b) w).accumulator :=
  ⟨EnvelopeGenerator.clock_add a b e hwf hg, WaveformGenerator.clock_acc_add a b w ht⟩

/-- C1 (witness): the amended additivity at `a = 2`, `b = 3` on the reset
states. -/
theorem C1_witness :
    EnvelopeGenerator.clock 3 (EnvelopeGenerator.clock 2 EnvelopeGenerator.reset) =
      EnvelopeGenerator.clock (2 + 3) EnvelopeGenerator.reset ∧
    (WaveformGenerator.clock 3 (WaveformGenerator.clock 2 wave0)).accumulator =
      (WaveformGenerator.clock (2 + 3) wave0).accumulator :=
  C1_additivity 2 3 EnvelopeGenerator.reset wave0
    (EnvelopeGenerator.Reachable.wellFormed .reset)
    EnvelopeGenerator.reset_goodState rfl

/-- C2 (counterexample): in the spec's S2 scenario (reset; attack rate 0;
gate on; 8 cycles; `ATTACK_DECAY := 0xF0`), the envelope counter is already 1
after a further 31251 cycles — not 0 as claimed.  The rewrite to rate 15 sets
the comparison value 31252 above the rate counter (which is only 8), so no
wrap through `0x8000` occurs and the counter first steps at 31244 of those
cycles. -/
theorem C2_counterexample :
    EnvelopeGenerator.Reachable EnvelopeGenerator.adsr_bug_state ∧
    (EnvelopeGenerator.clock 31251 EnvelopeGenerator.adsr_bug_state).envelope_counter
      = 1 := by
  constructor
  · unfold EnvelopeGenerator.adsr_bug_state
    exact .writeATTACK_DECAY 0xf0 (.clock 8 (.writeCONTROL_REG 1
      (.writeATTACK_DECAY 0 .reset)))
  · decide

/-- C2 (amended): in the S2 scenario the envelope counter stays 0 for 31243
further cycles (rate counter at 31251, short of the comparison value 31252
and far from wrapping), and increments to 1 on the next cycle. -/
theorem C2_adsr_delay :
    (EnvelopeGenerator.clock 31243 EnvelopeGenerator.adsr_bug_state).envelope_counter
      = 0 ∧
    (EnvelopeGenerator.clock 31243
      EnvelopeGenerator.adsr_bug_state).rate_counter = 31251 ∧
    (EnvelopeGenerator.clock 1 (EnvelopeGenerator.clock 31243
      EnvelopeGenerator.adsr_bug_state)).envelope_counter = 1 := by
  refine ⟨by decide, by decide, by decide⟩

/-- C3: the rate table holds the sixteen comparison values
9, 32, 63, 95, 149, 220, 267, 313, 392, 977, 1954, 3126, 3906, 11720, 19532,
31252, and from a freshly gated attack at rate `i` the envelope counter stays
0 for any run shorter than the period and reaches 1 exactly at the period. -/
theorem C3_rate_table (i t : Nat) (hi : i ≤ 15)
    (ht : t < EnvelopeGenerator.rate_counter_period.getD i 0) :
    EnvelopeGenerator.rate_counter_period =
      [9, 32, 63, 95, 149, 220, 267, 313, 392, 977, 1954, 3126, 3906,
       11720, 19532, 31252] ∧
    (EnvelopeGenerator.clock t (EnvelopeGenerator.gate_on i)).envelope_counter = 0 ∧
    (EnvelopeGenerator.clock (EnvelopeGenerator.rate_counter_period.getD i 0)
      (EnvelopeGenerator.gate_on i)).envelope_counter = 1 := by
  refine ⟨rfl, ?_, ?_⟩
  · have hst : (EnvelopeGenerator.gate_on i).state = EnvPhase.ATTACK := by
      interval_cases i <;> rfl
    have henv : (EnvelopeGenerator.gate_on i).envelope_counter = 0 := by
      interval_cases i <;> rfl
    have hrc : (EnvelopeGenerator.gate_on i).rate_counter = 0 := by
      interval_cases i <;> rfl
    have hatk : (EnvelopeGenerator.gate_on i).attack = i := by
      interval_cases i <;> rfl
    exact EnvelopeGenerator.clock_attack_first_period _ t hst henv hrc
      (by rw [hatk]; exact hi) (by rw [hatk]; exact ht)
  · interval_cases i <;> decide

/-- C3 (witness): rate index 0, 5 cycles. -/
theorem C3_witness :
    EnvelopeGenerator.rate_counter_period =
      [9, 32, 63, 95, 149, 220, 267, 313, 392, 977, 1954, 3126, 3906,
       11720, 19532, 31252] ∧
    (EnvelopeGenerator.clock 5 (EnvelopeGenerator.gate_on 0)).envelope_counter = 0 ∧
    (EnvelopeGenerator.clock (EnvelopeGenerator.rate_counter_period.getD 0 0)
      (EnvelopeGenerator.gate_on 0)).envelope_counter = 1 :=
  C3_rate_table 0 5 (by decide) (by decide)

/-- C4: on every reachable envelope generator state the envelope counter is
at most `0xff` before and after any `clock(delta_t)`; while the generator
stays in ATTACK the counter does not decrease, and from RELEASE it does not
increase. -/
theorem C4_envelope_invariants (e : EnvelopeGenerator) (dt : Nat)
    (hre : EnvelopeGenerator.Reachable e) :
    e.envelope_counter ≤ 0xff ∧
    (EnvelopeGenerator.clock dt e).envelope_counter ≤ 0xff ∧
    (e.state = EnvPhase.ATTACK →
      (EnvelopeGenerator.clock dt e).state = EnvPhase.ATTACK →
      e.envelope_counter ≤ (EnvelopeGenerator.clock dt e).envelope_counter) ∧
    (e.state = EnvPhase.RELEASE →
      (EnvelopeGenerator.clock dt e).envelope_counter ≤ e.envelope_counter) := by
  have hwf := hre.wellFormed
  exact ⟨hwf.1, EnvelopeGenerator.clock_env_le dt e hwf.1,
    fun h1 h2 => EnvelopeGenerator.clock_attack_mono dt e hwf.1 h1 h2,
    fun h1 => EnvelopeGenerator.clock_release_env_le dt e hwf.1 h1⟩

/-- C4 (witness): the invariants at the reset state over 5 cycles. -/
theorem C4_witness :
    EnvelopeGenerator.reset.envelope_counter ≤ 0xff ∧
    (EnvelopeGenerator.clock 5 EnvelopeGenerator.reset).envelope_counter ≤ 0xff ∧
    (EnvelopeGenerator.reset.state = EnvPhase.ATTACK →
      (EnvelopeGenerator.clock 5 EnvelopeGenerator.reset).state = EnvPhase.ATTACK →
      EnvelopeGenerator.reset.envelope_counter ≤
        (EnvelopeGenerator.clock 5 EnvelopeGenerator.reset).envelope_counter) ∧
    (EnvelopeGenerator.reset.state = EnvPhase.RELEASE →
      (EnvelopeGenerator.clock 5 EnvelopeGenerator.reset).envelope_counter ≤
        EnvelopeGenerator.reset.envelope_counter) :=
  C4_envelope_invariants EnvelopeGenerator.reset 5 EnvelopeGenerator.Reachable.reset

/-- C5: with the test bit clear, one `clock(delta_t)` of a waveform
generator keeps a nonzero 23-bit noise shift register nonzero (and 23-bit),
and `reset` sets it to the nonzero value `0x7ffff8`. -/
theorem C5_lfsr_nonzero (dt : Nat) (w : WaveformGenerator)
    (ht : w.test = false) (h0 : w.shift_register ≠ 0)
    (hlt : w.shift_register < 0x800000) :
    (WaveformGenerator.clock dt w).shift_register ≠ 0 ∧
    (WaveformGenerator.clock dt w).shift_register < 0x800000 ∧
    (WaveformGenerator.reset w).shift_register = 0x7ffff8 :=
  ⟨(WaveformGenerator.clock_shift_register_nonzero dt w ht h0 hlt).1,
   (WaveformGenerator.clock_shift_register_nonzero dt w ht h0 hlt).2, rfl⟩

/-- C5 (witness): 7 cycles on the reset state. -/
theorem C5_witness :
    (WaveformGenerator.clock 7 wave0).shift_register ≠ 0 ∧
    (WaveformGenerator.clock 7 wave0).shift_register < 0x800000 ∧
    (WaveformGenerator.reset wave0).shift_register = 0x7ffff8 :=
  C5_lfsr_nonzero 7 wave0 rfl (by decide) (by decide)

/-- C6: a CONTROL write with the test bit set zeroes the accumulator and the
shift register and latches `test = 1`; while `test = 1` every `clock(delta_t)`
is a no-op on the generator, frequency and pulse-width writes never touch
accumulator or shift register, and a CONTROL write clearing the test bit sets
the shift register to `0x7ffff8`. -/
theorem C6_test_behavior (dt control : Nat) (w : WaveformGenerator) :
    (control / 8 % 2 = 1 →
      (WaveformGenerator.writeCONTROL_REG control w).accumulator = 0 ∧
      (WaveformGenerator.writeCONTROL_REG control w).shift_register = 0 ∧
      (WaveformGenerator.writeCONTROL_REG control w).test = true) ∧
    (w.test = true → WaveformGenerator.clock dt w = w) ∧
    (w.test = true → control / 8 % 2 = 0 →
      (WaveformGenerator.writeCONTROL_REG control w).shift_register = 0x7ffff8 ∧
      (WaveformGenerator.writeCONTROL_REG control w).test = false) ∧
    (WaveformGenerator.writeFREQ_LO control w).accumulator = w.accumulator ∧
    (WaveformGenerator.writeFREQ_LO control w).shift_register = w.shift_register ∧
    (WaveformGenerator.writeFREQ_HI control w).accumulator = w.accumulator ∧
    (WaveformGenerator.writeFREQ_HI control w).shift_register = w.shift_register ∧
    (WaveformGenerator.writePW_LO control w).accumulator = w.accumulator ∧
    (WaveformGenerator.writePW_LO control w).shift_register = w.shift_register ∧
    (WaveformGenerator.writePW_HI control w).accumulator = w.accumulator ∧
    (WaveformGenerator.writePW_HI control w).shift_register = w.shift_register := by
  refine ⟨fun hc => ?_, fun htest => ?_, fun htest hc => ?_,
    rfl, rfl, rfl, rfl, rfl, rfl, rfl, rfl⟩
  · unfold WaveformGenerator.writeCONTROL_REG
    dsimp only
    rw [if_pos hc]
    exact ⟨rfl, rfl, rfl⟩
  · unfold WaveformGenerator.clock
    rw [if_pos htest]
  · unfold WaveformGenerator.writeCONTROL_REG
    dsimp only
    rw [if_neg (by omega), if_pos htest]
    exact ⟨rfl, rfl⟩

/-- C6 (witness): control value 8 (test bit set) on a test-mode state. -/
theorem C6_witness :
    ((8 : Nat) / 8 % 2 = 1 →
      (WaveformGenerator.writeCONTROL_REG 8 wave0).accumulator = 0 ∧
      (WaveformGenerator.writeCONTROL_REG 8 wave0).shift_register = 0 ∧
      (WaveformGenerator.writeCONTROL_REG 8 wave0).test = true) ∧
    (wave0.test = true → WaveformGenerator.clock 2 wave0 = wave0) ∧
    (wave0.test = true → (8 : Nat) / 8 % 2 = 0 →
      (WaveformGenerator.writeCONTROL_REG 8 wave0).shift_register = 0x7ffff8 ∧
      (WaveformGenerator.writeCONTROL_REG 8 wave0).test = false) ∧
    (WaveformGenerator.writeFREQ_LO 8 wave0).accumulator = wave0.accumulator ∧
    (WaveformGenerator.writeFREQ_LO 8 wave0).shift_register = wave0.shift_register ∧
    (WaveformGenerator.writeFREQ_HI 8 wave0).accumulator = wave0.accumulator ∧
    (WaveformGenerator.writeFREQ_HI 8 wave0).shift_register = wave0.shift_register ∧
    (WaveformGenerator.writePW_LO 8 wave0).accumulator = wave0.accumulator ∧
    (WaveformGenerator.writePW_LO 8 wave0).shift_register = wave0.shift_register ∧
    (WaveformGenerator.writePW_HI 8 wave0).accumulator = wave0.accumulator ∧
    (WaveformGenerator.writePW_HI 8 wave0).shift_register = wave0.shift_register :=
  C6_test_behavior 2 8 wave0

/-- C7: after `reset()` the waveform generator has accumulator 0, shift
register `0x7ffff8`, `freq = 0`, `pw = 0` and all control flags clear; the
envelope generator has all counters at 0, gate off, state RELEASE; and the
external filter states are zero (the filter reset is spec-modelled — its
source file is not in the repository). -/
theorem C7_reset_state (w : WaveformGenerator) :
    (WaveformGenerator.reset w).accumulator = 0 ∧
    (WaveformGenerator.reset w).shift_register = 0x7ffff8 ∧
    (WaveformGenerator.reset w).freq = 0 ∧
    (WaveformGenerator.reset w).pw = 0 ∧
    (WaveformGenerator.reset w).test = false ∧
    (WaveformGenerator.reset w).ring_mod = false ∧
    (WaveformGenerator.reset w).sync = false ∧
    (WaveformGenerator.reset w).msb_rising = false ∧
    EnvelopeGenerator.reset.envelope_counter = 0 ∧
    EnvelopeGenerator.reset.rate_counter = 0 ∧
    EnvelopeGenerator.reset.exponential_counter = 0 ∧
    EnvelopeGenerator.reset.gate = false ∧
    EnvelopeGenerator.reset.state = EnvPhase.RELEASE ∧
    ExternalFilter.reset.vlp = 0 ∧
    ExternalFilter.reset.vhp = 0 :=
  ⟨rfl, rfl, rfl, rfl, rfl, rfl, rfl, rfl, rfl, rfl, rfl, rfl, rfl, rfl, rfl⟩

/-- C7 (witness): the reset conjunction at a concrete generator state. -/
theorem C7_witness :
    (WaveformGenerator.reset wave0).accumulator = 0 ∧
    (WaveformGenerator.reset wave0).shift_register = 0x7ffff8 ∧
    (WaveformGenerator.reset wave0).freq = 0 ∧
    (WaveformGenerator.reset wave0).pw = 0 ∧
    (WaveformGenerator.reset wave0).test = false ∧
    (WaveformGenerator.reset wave0).ring_mod = false ∧
    (WaveformGenerator.reset wave0).sync = false ∧
    (WaveformGenerator.reset wave0).msb_rising = false ∧
    EnvelopeGenerator.reset.envelope_counter = 0 ∧
    EnvelopeGenerator.reset.rate_counter = 0 ∧
    EnvelopeGenerator.reset.exponential_counter = 0 ∧
    EnvelopeGenerator.reset.gate = false ∧
    EnvelopeGenerator.reset.state = EnvPhase.RELEASE ∧
    ExternalFilter.reset.vlp = 0 ∧
    ExternalFilter.reset.vhp = 0 :=
  C7_reset_state wave0

/-- C8 (counterexample): `ExternalFilter::output()` is not clamped.  On the
reachable overdriven state the raw value `(vlp - vhp) >> 11 = 33112` wraps in
the `short` return type to `-32424` instead of clamping to `32767`. -/
theorem C8_counterexample :
    ExternalFilter.Reachable ExternalFilter.overdrive_state ∧
    ExternalFilter.output ExternalFilter.overdrive_state ≠
      clamp16 (Int.fdiv (ExternalFilter.overdrive_state.vlp -
        ExternalFilter.overdrive_state.vhp) 2048) := by
  constructor
  · unfold ExternalFilter.overdrive_state
    exact .clock 200 32767 (by decide) (by decide)
      (.clock 300 (-32768) (by decide) (by decide) .reset)
  · decide

/-- C8 (amended): `output()` returns `(vlp - vhp) >> 11` wrapped to 16 bits;
this agrees with the raw value and with the clamped value exactly when the
raw value already lies in the signed 16-bit range. -/
theorem C8_output_clamped (f : ExternalFilter)
    (h1 : -32768 ≤ Int.fdiv (f.vlp - f.vhp) 2048)
    (h2 : Int.fdiv (f.vlp - f.vhp) 2048 ≤ 32767) :
    ExternalFilter.output f = Int.fdiv (f.vlp - f.vhp) 2048 ∧
    ExternalFilter.output f = clamp16 (Int.fdiv (f.vlp - f.vhp) 2048) := by
  unfold ExternalFilter.output ExternalFilter.toShort clamp16
  constructor
  · omega
  · split_ifs with ha hb
    · omega
    · omega
    · omega

/-- C8 (witness): the amended statement at the reset filter state. -/
theorem C8_witness :
    ExternalFilter.output ExternalFilter.reset =
      Int.fdiv (ExternalFilter.reset.vlp - ExternalFilter.reset.vhp) 2048 ∧
    ExternalFilter.output ExternalFilter.reset =
      clamp16 (Int.fdiv (ExternalFilter.reset.vlp - ExternalFilter.reset.vhp) 2048) :=
  C8_output_clamped ExternalFilter.reset (by decide) (by decide)

/-- C9: with the filter disabled, both clock overloads (any `delta_t`,
including 0) set `vlp = vi << 11` and `vhp = 0`, and a subsequent `output()`
returns exactly `vi`. -/
theorem C9_bypass (dt : Nat) (vi : Int) (f : ExternalFilter)
    (hd : f.enabled = false) (h1 : -32768 ≤ vi) (h2 : vi ≤ 32767) :
    (ExternalFilter.clock dt vi f).vlp = vi * 2048 ∧
    (ExternalFilter.clock dt vi f).vhp = 0 ∧
    (ExternalFilter.clock1 vi f).vlp = vi * 2048 ∧
    (ExternalFilter.clock1 vi f).vhp = 0 ∧
    ExternalFilter.output (ExternalFilter.clock dt vi f) = vi := by
  unfold ExternalFilter.clock ExternalFilter.clock1
  rw [if_pos hd, if_pos hd]
  refine ⟨rfl, rfl, rfl, rfl, ?_⟩
  unfold ExternalFilter.output ExternalFilter.toShort
  dsimp only
  have hfd : Int.fdiv (vi * 2048 - 0) 2048 = vi := by
    rw [Int.sub_zero]
    exact Int.mul_fdiv_cancel vi (by decide)
  rw [hfd]
  omega

/-- C9 (witness): the bypass at `vi = 1234` over 4 cycles. -/
theorem C9_witness :
    (ExternalFilter.clock 4 1234 ⟨false, 0, 0⟩).vlp = 1234 * 2048 ∧
    (ExternalFilter.clock 4 1234 ⟨false, 0, 0⟩).vhp = 0 ∧
    (ExternalFilter.clock1 1234 ⟨false, 0, 0⟩).vlp = 1234 * 2048 ∧
    (ExternalFilter.clock1 1234 ⟨false, 0, 0⟩).vhp = 0 ∧
    ExternalFilter.output (ExternalFilter.clock 4 1234 ⟨false, 0, 0⟩) = 1234 :=
  C9_bypass 4 1234 ⟨false, 0, 0⟩ rfl (by decide) (by decide)

/-- C10: `SID::output()` divides the negated filter output by
`4095*255*3*15*2/65536 = 1433`, the same constant `SID::output(bits)`
computes for `bits = 15` since `2 << 15 = 65536` — so the default 16-bit
output equals `output(15)` on every filter output value. -/
theorem C10_output_default (v : Int) : SID.output v = SID.output_bits 15 v := rfl

/-- C10 (witness): the two outputs agree at a concrete value. -/
theorem C10_witness : SID.output 123456 = SID.output_bits 15 123456 :=
  C10_output_default 123456

end ReSID
